import Mathlib

/-!
# kdeconnect-kde: device registry of the daemon and the contacts plugin caches

A shallow embedding of `daemon/daemon.cpp` (`Daemon::onNewDeviceLink`,
`Daemon::onDeviceReachableStatusChanged`) and of
`plugins/contacts/contactsplugin.cpp` (the request/response/cache handlers),
followed by the properties proved about them.

Qt containers are association lists, signals are appended to a log kept in the
state, and the nested event loop of a blocking query is a partial state
transformer, given the timer and the signal connected to `quit()`.
-/

namespace KdeConnect

/-! ## Qt containers -/

/-- The value stored under a key of a `QMap`/`QHash` (`QMap::find`), first match. -/
def QMap.find {κ α : Type} [DecidableEq κ] : List (κ × α) → κ → Option α
  | [], _ => none
  | (k', v) :: m, k => if k' = k then some v else QMap.find m k

/-- Membership test `QMap::contains`. -/
def QMap.contains {κ α : Type} [DecidableEq κ] (m : List (κ × α)) (k : κ) : Bool :=
  (QMap.find m k).isSome

/-- Assignment `m[k] = v` / `QMap::insert`: replaces the value of an existing key,
adds the key otherwise. -/
def QMap.insert {κ α : Type} [DecidableEq κ] : List (κ × α) → κ → α → List (κ × α)
  | [], k, v => [(k, v)]
  | (k', v') :: m, k, v => if k' = k then (k, v) :: m else (k', v') :: QMap.insert m k v

/-- Removal `QMap::remove`: drops every item stored under the key. -/
def QMap.remove {κ α : Type} [DecidableEq κ] (m : List (κ × α)) (k : κ) : List (κ × α) :=
  m.filter (fun e => decide (e.1 ≠ k))

/-- The keys of a map, `QMap::keys`. -/
def QMap.keys {κ α : Type} (m : List (κ × α)) : List κ :=
  m.map Prod.fst

/-- Read access `QMap::value(k)`: the stored value, or the default-constructed one. -/
def QMap.value {κ α : Type} [DecidableEq κ] (m : List (κ × α)) (k : κ) (dflt : α) : α :=
  (QMap.find m k).getD dflt

/-- Insertion into a `QSet`: nothing happens when the element is already there. -/
def QSet.insert {α : Type} [DecidableEq α] (s : List α) (x : α) : List α :=
  if x ∈ s then s else s ++ [x]

/-! ## Decimal conversions of `QString` -/

/-- Decimal rendering `QString::number(n)`. -/
def QString.number (n : Int) : String :=
  match n with
  | Int.ofNat m => String.mk (Nat.toDigits 10 m)
  | Int.negSucc m => String.mk ('-' :: Nat.toDigits 10 (m + 1))

/-- The value of a decimal digit character. -/
def digitValue (c : Char) : Option Nat :=
  if 48 ≤ c.toNat ∧ c.toNat ≤ 57 then some (c.toNat - 48) else none

/-- Reads a run of decimal digits, most significant first, onto an accumulator. -/
def parseDigits : List Char → Nat → Option Nat
  | [], acc => some acc
  | c :: cs, acc =>
    match digitValue c with
    | some d => parseDigits cs (acc * 10 + d)
    | none => none

/-- Reads an optionally signed decimal numeral; `none` when the text is not one. -/
def parseInteger (cs : List Char) : Option Int :=
  match cs with
  | [] => none
  | c :: rest =>
    if c = '-' then
      (if rest = [] then none else (parseDigits rest 0).map (fun n => -(n : Int)))
    else if c = '+' then
      (if rest = [] then none else (parseDigits rest 0).map (fun n => (n : Int)))
    else (parseDigits (c :: rest) 0).map (fun n => (n : Int))

/-- Strips leading and trailing white space, which the Qt conversions ignore. -/
def trimSpaces (cs : List Char) : List Char :=
  ((cs.dropWhile Char.isWhitespace).reverse.dropWhile Char.isWhitespace).reverse

/-- Conversion `QString::toLongLong()`: the 64-bit value of the numeral, and `0`
when the conversion fails (not a numeral, or out of the 64-bit range). -/
def QString.toLongLong (s : String) : Int :=
  match parseInteger (trimSpaces s.data) with
  | some n => if -(2 : Int) ^ 63 ≤ n ∧ n < (2 : Int) ^ 63 then n else 0
  | none => 0

/-- Conversion `QString::toLong()`; `long` has 64 bits on the platforms the daemon
is built for, so this is the same conversion as `toLongLong`. -/
def QString.toLong (s : String) : Int :=
  QString.toLongLong s

/-- Conversion `QString::toInt()`: the 32-bit value of the numeral, `0` on failure. -/
def QString.toInt (s : String) : Int :=
  match parseInteger (trimSpaces s.data) with
  | some n => if -(2 : Int) ^ 31 ≤ n ∧ n < (2 : Int) ^ 31 then n else 0
  | none => 0

/-! ## Network packages -/

/-- Modelled from the spec: the kinds of value a package body holds
(`networkpackage.h` is not among the sources): "string, string sequence, nested
list-of-string-sequences, or integer". -/
inductive Value where
  | str (s : String)
  | strList (l : List String)
  | listList (l : List (List String))
  | int (n : Int)
  deriving DecidableEq

/-- Modelled from the spec: the protocol envelope, a type tag and a body mapping
string keys to values (`networkpackage.h` is not among the sources). -/
structure NetworkPackage where
  type : String
  body : List (String × Value)
  deriving DecidableEq

/-- Modelled from the spec: `NetworkPackage::has(key)`. -/
def NetworkPackage.has (np : NetworkPackage) (key : String) : Bool :=
  QMap.contains np.body key

/-- Modelled from the spec: `NetworkPackage::get<QString>(key)`, "a strongly-typed
value or a well-defined absence (empty/default) rather than throwing". -/
def NetworkPackage.getQString (np : NetworkPackage) (key : String) : String :=
  match QMap.find np.body key with
  | some (Value.str s) => s
  | _ => ""

/-- Modelled from the spec: `NetworkPackage::get<QStringList>(key)`, empty when the
key is absent or holds another kind of value. -/
def NetworkPackage.getQStringList (np : NetworkPackage) (key : String) : List String :=
  match QMap.find np.body key with
  | some (Value.strList l) => l
  | _ => []

/-- Modelled from the spec: `NetworkPackage::get<QVariantList>(key)` followed by
`value<QStringList>()` on each element, empty when the key is absent or holds
another kind of value. -/
def NetworkPackage.getQVariantList (np : NetworkPackage) (key : String) :
    List (List String) :=
  match QMap.find np.body key with
  | some (Value.listList l) => l
  | _ => []

/-- Package construction `NetworkPackage np(type)`: an empty body. -/
def NetworkPackage.create (type : String) : NetworkPackage :=
  { type := type, body := [] }

/-- Setter `np.set<QStringList>(key, l)`. -/
def NetworkPackage.setQStringList (np : NetworkPackage) (key : String) (l : List String) :
    NetworkPackage :=
  { np with body := QMap.insert np.body key (Value.strList l) }

/-! ## Devices and their links -/

/-- A device link, known to the daemon only as a handle and the name of the
provider that made it. -/
structure DeviceLink where
  handle : Nat
  provider : String
  deriving DecidableEq

/-- Modelled from the spec: the `Device` class (`device.h`/`device.cpp` are not among
the sources): identifier, name, paired flag and the current set of links. -/
structure Device where
  id : String
  name : String
  paired : Bool
  links : List DeviceLink
  deriving DecidableEq

/-- Modelled from the spec: `Device::reachable()`, "true iff the link set is
non-empty". -/
def Device.reachable (d : Device) : Bool :=
  !d.links.isEmpty

/-- Modelled from the spec: `Device(id, name)`, a remembered paired device created
at start-up "with an empty link set". -/
def Device.remembered (id name : String) : Device :=
  { id := id, name := name, paired := true, links := [] }

/-- Modelled from the spec: `Device(id, name, dl)`, a device made "on first discovery
of a previously-unknown identifier, seeded directly with the discovered link";
it is not paired. -/
def Device.discovered (id name : String) (dl : DeviceLink) : Device :=
  { id := id, name := name, paired := false, links := [dl] }

/-- Modelled from the spec: `Device::addLink`, "appends to the link set; if this
transitions reachability from false to true, raises reachableStatusChanged". The
second component tells whether the signal is raised. -/
def Device.addLink (d : Device) (dl : DeviceLink) : Device × Bool :=
  ({ d with links := d.links ++ [dl] }, d.links.isEmpty)

/-- Modelled from the spec: `Device::removeLink`, "if this transitions reachability
from true to false, raises reachableStatusChanged". The second component tells
whether the signal is raised. -/
def Device.removeLink (d : Device) (dl : DeviceLink) : Device × Bool :=
  ({ d with links := d.links.erase dl },
    !d.links.isEmpty && (d.links.erase dl).isEmpty)

/-! ## The daemon -/

/-- The signals of `Daemon`. -/
inductive DaemonSignal where
  | deviceAdded (id : String)
  | deviceRemoved (id : String)
  | deviceVisibilityChanged (id : String) (visible : Bool)
  deriving DecidableEq

/-- One `Q_EMIT`: the signal, and the registry as a connected slot sees it at that
moment. -/
structure Emission where
  signal : DaemonSignal
  registry : List (String × Device)
  deriving DecidableEq

/-- The state of `Daemon`: the registry `mDevices` and the log of what it emitted. -/
structure Daemon where
  mDevices : List (String × Device)
  emitted : List Emission
  deriving DecidableEq

/-- Emission `Q_EMIT sig`. -/
def Daemon.emit (d : Daemon) (sig : DaemonSignal) : Daemon :=
  { d with emitted := d.emitted ++ [{ signal := sig, registry := d.mDevices }] }

/-- Slot `Daemon::onDeviceReachableStatusChanged()`; `device` is `sender()`. -/
def Daemon.onDeviceReachableStatusChanged (d : Daemon) (device : Device) : Daemon :=
  let id := device.id
  let d1 := d.emit (DaemonSignal.deviceVisibilityChanged id device.reachable)
  if !device.reachable then
    if !device.paired then
      let d2 := d1.emit (DaemonSignal.deviceRemoved id)
      { d2 with mDevices := QMap.remove d2.mDevices id }
    else d1
  else d1

/-- Slot `Daemon::onNewDeviceLink(identityPackage, dl)`. Every device of the registry
has its `reachableStatusChanged` connected to `onDeviceReachableStatusChanged`, so
the slot runs inside `addLink` when that signal is raised. -/
def Daemon.onNewDeviceLink (d : Daemon) (identityPackage : NetworkPackage)
    (dl : DeviceLink) : Daemon :=
  let id := identityPackage.getQString "deviceId"
  match QMap.find d.mDevices id with
  | some device =>
    let r := device.addLink dl
    let d1 : Daemon := { d with mDevices := QMap.insert d.mDevices id r.1 }
    let d2 := if r.2 then d1.onDeviceReachableStatusChanged r.1 else d1
    d2.emit (DaemonSignal.deviceVisibilityChanged id true)
  | none =>
    let name := identityPackage.getQString "deviceName"
    let device := Device.discovered id name dl
    let d1 : Daemon := { d with mDevices := QMap.insert d.mDevices id device }
    let d2 := d1.emit (DaemonSignal.deviceAdded id)
    d2.emit (DaemonSignal.deviceVisibilityChanged id true)

/-- Loss of a link: the transport session of `dl` ends and the device registered
under `id` drops it with `removeLink`; the connected slot runs when the device
raises `reachableStatusChanged`. -/
def Daemon.onLinkLost (d : Daemon) (id : String) (dl : DeviceLink) : Daemon :=
  match QMap.find d.mDevices id with
  | some device =>
    let r := device.removeLink dl
    let d1 : Daemon := { d with mDevices := QMap.insert d.mDevices id r.1 }
    if r.2 then d1.onDeviceReachableStatusChanged r.1 else d1
  | none => d

/-- What reaches the daemon from its link providers and devices. -/
inductive DaemonInput where
  | discovery (identityPackage : NetworkPackage) (dl : DeviceLink)
  | linkLost (id : String) (dl : DeviceLink)
  deriving DecidableEq

/-- One input handled by the daemon. -/
def Daemon.step (d : Daemon) : DaemonInput → Daemon
  | DaemonInput.discovery np dl => d.onNewDeviceLink np dl
  | DaemonInput.linkLost id dl => d.onLinkLost id dl

/-- A sequence of inputs handled in order. -/
def Daemon.run (d : Daemon) (inputs : List DaemonInput) : Daemon :=
  inputs.foldl Daemon.step d

/-- The signals of the log, without the registry snapshots. -/
def Daemon.signals (d : Daemon) : List DaemonSignal :=
  d.emitted.map Emission.signal

/-- The `visible` arguments of the `deviceVisibilityChanged(id, _)` signals in a list
of signals, in order. -/
def visibilityOf (id : String) : List DaemonSignal → List Bool
  | [] => []
  | DaemonSignal.deviceVisibilityChanged i b :: rest =>
    if i = id then b :: visibilityOf id rest else visibilityOf id rest
  | _ :: rest => visibilityOf id rest

/-- The `visible` arguments of the `deviceVisibilityChanged(id, _)` signals that `next`
has emitted beyond those of `d`. -/
def Daemon.visibilitySince (d next : Daemon) (id : String) : List Bool :=
  visibilityOf id (next.signals.drop d.signals.length)

/-- Every device of the registry is stored under its own identifier. -/
def Daemon.KeyedById (d : Daemon) : Prop :=
  ∀ e ∈ d.mDevices, e.2.id = e.1

/-! ## The contacts plugin -/

/-- Modelled from the spec: the value of the macro `PACKAGE_TYPE_CONTACTS_REQUEST_NAMES_BY_UIDS`
(`contactsplugin.h` is not among the sources); the spec calls the type
`REQUEST_NAMES_BY_UIDS`. -/
def PACKAGE_TYPE_CONTACTS_REQUEST_NAMES_BY_UIDS : String := "REQUEST_NAMES_BY_UIDS"

/-- Modelled from the spec: the value of the macro `PACKAGE_TYPE_CONTACTS_REQUEST_PHONES_BY_UIDS`
(`contactsplugin.h` is not among the sources). -/
def PACKAGE_TYPE_CONTACTS_REQUEST_PHONES_BY_UIDS : String := "REQUEST_PHONES_BY_UIDS"

/-- Modelled from the spec: the value of the macro `PACKAGE_TYPE_CONTACTS_RESPONSE`
(`contactsplugin.h` is not among the sources). -/
def PACKAGE_TYPE_CONTACTS_RESPONSE : String := "RESPONSE"

/-- Modelled from the spec: the value of the macro `PACKAGE_TYPE_CONTACTS_RESPONSE_UIDS`
(`contactsplugin.h` is not among the sources). -/
def PACKAGE_TYPE_CONTACTS_RESPONSE_UIDS : String := "RESPONSE_UIDS"

/-- Modelled from the spec: the value of the macro `PACKAGE_TYPE_CONTACTS_RESPONSE_NAMES`
(`contactsplugin.h` is not among the sources). -/
def PACKAGE_TYPE_CONTACTS_RESPONSE_NAMES : String := "RESPONSE_NAMES"

/-- Modelled from the spec: the value of the macro `PACKAGE_TYPE_CONTACTS_RESPONSE_PHONES`
(`contactsplugin.h` is not among the sources). -/
def PACKAGE_TYPE_CONTACTS_RESPONSE_PHONES : String := "RESPONSE_PHONES"

/-- A phone number entry, built by `PhoneEntry(number, type, label)`. -/
structure PhoneEntry where
  number : String
  type : Int
  label : String
  deriving DecidableEq

/-- A bulk contact entry: the name, then the pair (category, number). -/
abbrev ContactsEntry := String × (String × String)

/-- The signals of `ContactsPlugin`. -/
inductive ContactsSignal where
  | cachedContactsAvailable
  | cachedUIDsAvailable
  | cachedNamesAvailable
  | cachedPhonesAvailable
  deriving DecidableEq

/-- The state of `ContactsPlugin`: its caches, the log of the signals it emitted, the
packages it handed to `sendPackage`, and whether the device can carry a package
(the result of `sendPackage`, which the plugin does not decide). -/
structure ContactsPlugin where
  cachedContactsByName : List (String × List ContactsEntry)
  cachedContactsByNumber : List (String × List ContactsEntry)
  uIDCache : List Int
  namesCache : List (Int × String)
  phonesCache : List (Int × List PhoneEntry)
  emitted : List ContactsSignal
  outbox : List NetworkPackage
  linkUp : Bool
  deriving DecidableEq

/-- How the receive path can end without returning. -/
inductive Fault where
  | indexOutOfRange
  | fuelExhausted
  deriving DecidableEq

/-- Emission `Q_EMIT sig`. -/
def ContactsPlugin.emit (p : ContactsPlugin) (sig : ContactsSignal) : ContactsPlugin :=
  { p with emitted := p.emitted ++ [sig] }

/-- Call `sendPackage(np)`: the package goes to the device, whose answer is returned. -/
def ContactsPlugin.sendPackage (p : ContactsPlugin) (np : NetworkPackage) :
    Bool × ContactsPlugin :=
  (p.linkUp, { p with outbox := p.outbox ++ [np] })

/-- The `while(true)` loop of `ContactsPlugin::receivePackage` on a `RESPONSE`
package, from `index` on. The reads `contact[2]` and `contact[1]` are not guarded
by a length check; one that misses the list ends the run with `indexOutOfRange`. -/
def ContactsPlugin.receivePackageLoop (np : NetworkPackage) :
    Nat → Nat → ContactsPlugin → Except Fault ContactsPlugin
  | 0, _, _ => Except.error Fault.fuelExhausted
  | fuel + 1, index, p =>
    let contact := np.getQStringList (QString.number index)
    if contact.length = 0 then Except.ok p
    else
      match contact[0]?, contact[2]?, contact[1]? with
      | some contactName, some contactNumber, some contactNumberCategory =>
        let newContact : ContactsEntry := (contactName, (contactNumberCategory, contactNumber))
        let byName := QMap.insert p.cachedContactsByName contactName
          (QSet.insert (QMap.value p.cachedContactsByName contactName []) newContact)
        let byNumber := QMap.insert p.cachedContactsByNumber contactNumber
          (QSet.insert (QMap.value p.cachedContactsByNumber contactNumber []) newContact)
        ContactsPlugin.receivePackageLoop np fuel (index + 1)
          { p with cachedContactsByName := byName, cachedContactsByNumber := byNumber }
      | _, _, _ => Except.error Fault.indexOutOfRange

/-- Handler `ContactsPlugin::handleResponseUIDs`. -/
def ContactsPlugin.handleResponseUIDs (p : ContactsPlugin) (np : NetworkPackage) :
    Bool × ContactsPlugin :=
  if !np.has "uids" then (false, p)
  else
    let uIDs := np.getQStringList "uids"
    let cache := uIDs.foldl (fun c uID => QSet.insert c (QString.toLong uID)) p.uIDCache
    (true, ({ p with uIDCache := cache }).emit ContactsSignal.cachedUIDsAvailable)

/-- The body of the loop of `handleResponseNames` for one listed uid. -/
def storeName (np : NetworkPackage) (cache : List (Int × String)) (uID : String) :
    List (Int × String) :=
  if !np.has uID then cache
  else QMap.insert cache (QString.toLongLong uID) (np.getQString uID)

/-- Handler `ContactsPlugin::handleResponseNames`. -/
def ContactsPlugin.handleResponseNames (p : ContactsPlugin) (np : NetworkPackage) :
    Bool × ContactsPlugin :=
  if !np.has "uids" then (false, p)
  else
    let uIDs := np.getQStringList "uids"
    let cache := uIDs.foldl (storeName np) p.namesCache
    (true, ({ p with namesCache := cache }).emit ContactsSignal.cachedNamesAvailable)

/-- The body of the inner loop of `handleResponsePhones` for one entry of a uid. -/
def storePhone (key : Int) (cache : List (Int × List PhoneEntry)) (entryStr : List String) :
    List (Int × List PhoneEntry) :=
  if entryStr.length < 3 then cache
  else
    let entry : PhoneEntry :=
      { number := entryStr.getD 0 "", type := QString.toInt (entryStr.getD 1 ""),
        label := entryStr.getD 2 "" }
    QMap.insert cache key (QMap.value cache key [] ++ [entry])

/-- The body of the outer loop of `handleResponsePhones` for one listed uid. -/
def storePhones (np : NetworkPackage) (cache : List (Int × List PhoneEntry)) (uID : String) :
    List (Int × List PhoneEntry) :=
  if !np.has uID then cache
  else (np.getQVariantList uID).foldl (storePhone (QString.toLongLong uID)) cache

/-- Handler `ContactsPlugin::handleResponsePhones`. -/
def ContactsPlugin.handleResponsePhones (p : ContactsPlugin) (np : NetworkPackage) :
    Bool × ContactsPlugin :=
  if !np.has "uids" then (false, p)
  else
    let uIDs := np.getQStringList "uids"
    let cache := uIDs.foldl (storePhones np) p.phonesCache
    (true, ({ p with phonesCache := cache }).emit ContactsSignal.cachedPhonesAvailable)

/-- Slot `ContactsPlugin::receivePackage`; `fuel` bounds the iterations of the
`while(true)` loop of the `RESPONSE` branch. -/
def ContactsPlugin.receivePackage (fuel : Nat) (p : ContactsPlugin) (np : NetworkPackage) :
    Except Fault (Bool × ContactsPlugin) :=
  if np.type = PACKAGE_TYPE_CONTACTS_RESPONSE then
    match ContactsPlugin.receivePackageLoop np fuel 0 p with
    | Except.ok p1 => Except.ok (true, p1.emit ContactsSignal.cachedContactsAvailable)
    | Except.error f => Except.error f
  else if np.type = PACKAGE_TYPE_CONTACTS_RESPONSE_UIDS then
    Except.ok (p.handleResponseUIDs np)
  else if np.type = PACKAGE_TYPE_CONTACTS_RESPONSE_NAMES then
    Except.ok (p.handleResponseNames np)
  else if np.type = PACKAGE_TYPE_CONTACTS_RESPONSE_PHONES then
    Except.ok (p.handleResponsePhones np)
  else Except.ok (false, p)

/-- Method `ContactsPlugin::sendNamesForIDsRequest`. -/
def ContactsPlugin.sendNamesForIDsRequest (p : ContactsPlugin) (uIDs : List Int) :
    Bool × ContactsPlugin :=
  let np := NetworkPackage.create PACKAGE_TYPE_CONTACTS_REQUEST_NAMES_BY_UIDS
  let uIDsAsStrings := uIDs.map QString.number
  p.sendPackage (np.setQStringList "uids" uIDsAsStrings)

/-- Method `ContactsPlugin::sendPhonesForIDsRequest`. -/
def ContactsPlugin.sendPhonesForIDsRequest (p : ContactsPlugin) (uIDs : List Int) :
    Bool × ContactsPlugin :=
  let np := NetworkPackage.create PACKAGE_TYPE_CONTACTS_REQUEST_PHONES_BY_UIDS
  let uIDsAsStrings := uIDs.map QString.number
  p.sendPackage (np.setQStringList "uids" uIDsAsStrings)

/-- Modelled from the spec: the value of the macro `CONTACTS_TIMEOUT_MS`
(`contactsplugin.h` is not among the sources), "a fixed request timeout (example
value: on the order of seconds)", in milliseconds. -/
def CONTACTS_TIMEOUT_MS : Nat := 10000

/-- A `QTimer` as far as a wait depends on it. A timer fires, and emits `timeout()`,
only while it is active, and it is `start()` that makes it active. -/
structure QTimer where
  singleShot : Bool
  interval : Nat
  active : Bool
  deriving DecidableEq

/-- Declaration `QTimer timer;`: a timer that has not been started. -/
def QTimer.create : QTimer :=
  { singleShot := false, interval := 0, active := false }

/-- Call `timer.setSingleShot(b)`. -/
def QTimer.setSingleShot (t : QTimer) (b : Bool) : QTimer :=
  { t with singleShot := b }

/-- Call `timer.setInterval(msec)`. -/
def QTimer.setInterval (t : QTimer) (msec : Nat) : QTimer :=
  { t with interval := msec }

/-- Call `timer.start()`, which none of the query methods makes. -/
def QTimer.start (t : QTimer) : QTimer :=
  { t with active := true }

/-- The timer as the query methods leave it before they enter the event loop:
`setSingleShot(true)`, `setInterval(CONTACTS_TIMEOUT_MS)`, and no `start()`. -/
def waitTimer : QTimer :=
  (QTimer.create.setSingleShot true).setInterval CONTACTS_TIMEOUT_MS

/-- The nested event loop `waitForReplyLoop.exec()`, with `quit()` connected to
`timeout()` of `timer` and to the signal `reply` of the plugin, while the packages
`incoming` reach the plugin in this order and nothing else happens (with a running
timer, `incoming` are those that arrive before it fires). The loop returns after the
handler of the first package that emits `reply`. When the packages have run out it
returns at the timeout if the timer is active; with a timer that is not, nothing
ends the loop and the result is `none`. A package whose handling does not return
leaves `none` too. -/
def QEventLoop.exec (incoming : List NetworkPackage) (timer : QTimer) (reply : ContactsSignal)
    (p : ContactsPlugin) : Option ContactsPlugin :=
  match incoming with
  | [] => if timer.active then some p else none
  | np :: rest =>
    match p.receivePackage (np.body.length + 1) np with
    | Except.error _ => none
    | Except.ok r =>
      if reply ∈ r.2.emitted.drop p.emitted.length then some r.2
      else QEventLoop.exec rest timer reply r.2

/-- The course of a blocking query: whether the nested event loop was entered, and,
when the call returns, the map returned and the plugin at that moment; both are
`none` when the call never returns. -/
structure QueryResult (α : Type) where
  toReturn : Option (List (Int × α))
  waited : Bool
  plugin : Option ContactsPlugin

/-- The body of the last loop of the query methods: an id found in the cache is
copied, with its value, into the map to return. -/
def copyCached {α : Type} (cache : List (Int × α)) (toReturn : List (Int × α)) (id : Int) :
    List (Int × α) :=
  match QMap.find cache id with
  | some v => QMap.insert toReturn id v
  | none => toReturn

/-- The last loop of the query methods: copies the cached ids of `uIDs` into the
map returned. -/
def collectCached {α : Type} (cache : List (Int × α)) (uIDs : List Int) : List (Int × α) :=
  uIDs.foldl (copyCached cache) []

/-- Method `ContactsPlugin::getCachedNamesForIDs`. The nested event loop
`waitForReplyLoop.exec()` is `exec`, which is given the timer and the signal the
method connects to `quit()` and the plugin as the loop finds it; it yields the
plugin as the loop leaves it, or `none` when the loop never returns. The method
sets the timer up and does not start it. -/
def ContactsPlugin.getCachedNamesForIDs
    (exec : QTimer → ContactsSignal → ContactsPlugin → Option ContactsPlugin)
    (p : ContactsPlugin) (uIDs : List Int) : QueryResult String :=
  let uncachedIDs := uIDs.filter (fun id => !QMap.contains p.namesCache id)
  if uncachedIDs.length > 0 then
    let timer := (QTimer.create.setSingleShot true).setInterval CONTACTS_TIMEOUT_MS
    match exec timer ContactsSignal.cachedNamesAvailable
        (p.sendNamesForIDsRequest uncachedIDs).2 with
    | some p1 =>
      { toReturn := some (collectCached p1.namesCache uIDs), waited := true,
        plugin := some p1 }
    | none => { toReturn := none, waited := true, plugin := none }
  else
    { toReturn := some (collectCached p.namesCache uIDs), waited := false,
      plugin := some p }

/-- Method `ContactsPlugin::getCachedPhonesForIDs`, with `exec` as in
`getCachedNamesForIDs`; here too the timer is set up and not started. -/
def ContactsPlugin.getCachedPhonesForIDs
    (exec : QTimer → ContactsSignal → ContactsPlugin → Option ContactsPlugin)
    (p : ContactsPlugin) (uIDs : List Int) : QueryResult (List PhoneEntry) :=
  let uncachedIDs := uIDs.filter (fun id => !QMap.contains p.phonesCache id)
  if uncachedIDs.length > 0 then
    let timer := (QTimer.create.setSingleShot true).setInterval CONTACTS_TIMEOUT_MS
    match exec timer ContactsSignal.cachedPhonesAvailable
        (p.sendPhonesForIDsRequest uncachedIDs).2 with
    | some p1 =>
      { toReturn := some (collectCached p1.phonesCache uIDs), waited := true,
        plugin := some p1 }
    | none => { toReturn := none, waited := true, plugin := none }
  else
    { toReturn := some (collectCached p.phonesCache uIDs), waited := false,
      plugin := some p }

/-- Method `ContactsPlugin::getNamesByUIDs`, which forwards to `getCachedNamesForIDs`. -/
def ContactsPlugin.getNamesByUIDs
    (exec : QTimer → ContactsSignal → ContactsPlugin → Option ContactsPlugin)
    (p : ContactsPlugin) (uIDs : List Int) : QueryResult String :=
  p.getCachedNamesForIDs exec uIDs

/-- Method `ContactsPlugin::getPhonesByUIDs`, which forwards to `getCachedPhonesForIDs`. -/
def ContactsPlugin.getPhonesByUIDs
    (exec : QTimer → ContactsSignal → ContactsPlugin → Option ContactsPlugin)
    (p : ContactsPlugin) (uIDs : List Int) : QueryResult (List PhoneEntry) :=
  p.getCachedPhonesForIDs exec uIDs

/-- A plugin that has cached nothing, emitted nothing and sent nothing. -/
def ContactsPlugin.fresh : ContactsPlugin :=
  { cachedContactsByName := [], cachedContactsByNumber := [], uIDCache := [],
    namesCache := [], phonesCache := [], emitted := [], outbox := [], linkUp := true }

/-- The phone entries `handleResponsePhones` makes of the list a package carries for a
uid: one per entry of at least three strings, in package order. -/
def phoneEntriesOf (np : NetworkPackage) (uID : String) : List PhoneEntry :=
  ((np.getQVariantList uID).filter (fun e => decide (3 ≤ e.length))).map
    (fun e => { number := e.getD 0 "", type := QString.toInt (e.getD 1 ""),
                label := e.getD 2 "" })

/-- The bulk contact entry the `RESPONSE` loop makes of `[name, category, number]`:
`(name, (category, number))`. -/
def contactEntryOf (contact : List String) : ContactsEntry :=
  (contact.getD 0 "", (contact.getD 1 "", contact.getD 2 ""))

/-- One entry `[name, category, number]` stored as the claim words it: inserted into
`cachedContactsByName[name]` and into `cachedContactsByNumber[number]`. -/
def storeContact (p : ContactsPlugin) (contact : List String) : ContactsPlugin :=
  { p with
    cachedContactsByName := QMap.insert p.cachedContactsByName (contact.getD 0 "")
      (QSet.insert (QMap.value p.cachedContactsByName (contact.getD 0 "") [])
        (contactEntryOf contact)),
    cachedContactsByNumber := QMap.insert p.cachedContactsByNumber (contact.getD 2 "")
      (QSet.insert (QMap.value p.cachedContactsByNumber (contact.getD 2 "") [])
        (contactEntryOf contact)) }

/-- The entries of a `RESPONSE` package at the indices `0, 1, ..., k - 1`, in order. -/
def indexedContacts (np : NetworkPackage) (k : Nat) : List (List String) :=
  (List.range k).map (fun i : Nat => np.getQStringList (QString.number (i : Int)))

/-! ## Concrete states and packages used as instances -/

/-- A daemon that knows no device and has emitted nothing. -/
def Daemon.empty : Daemon :=
  { mDevices := [], emitted := [] }

/-- A link made by the broadcast provider. -/
def phoneLink : DeviceLink :=
  { handle := 1, provider := "BroadcastTcpLinkProvider" }

/-- The identity package `{deviceId: "abc", deviceName: "Phone"}`. -/
def phoneIdentity : NetworkPackage :=
  { type := "kdeconnect.identity",
    body := [("deviceId", Value.str "abc"), ("deviceName", Value.str "Phone")] }

/-- An identity package `{deviceName: "Phone"}` without a `deviceId` key. -/
def anonymousIdentity : NetworkPackage :=
  { type := "kdeconnect.identity", body := [("deviceName", Value.str "Phone")] }

/-- A registry holding the unpaired device "abc" after its last link has gone. -/
def strandedDaemon : Daemon :=
  { mDevices := [("abc", { id := "abc", name := "Phone", paired := false, links := [] })],
    emitted := [] }

/-- A second link to the device "abc". -/
def secondLink : DeviceLink :=
  { handle := 2, provider := "BroadcastTcpLinkProvider" }

/-- A registry holding the remembered paired device "abc", which has no link yet. -/
def rememberedDaemon : Daemon :=
  { mDevices := [("abc", Device.remembered "abc" "Phone")], emitted := [] }

/-- The reply `RESPONSE_NAMES{uids: ["1"], "1": "Alice"}`. -/
def aliceReply : NetworkPackage :=
  { type := PACKAGE_TYPE_CONTACTS_RESPONSE_NAMES,
    body := [("uids", Value.strList ["1"]), ("1", Value.str "Alice")] }

/-- A plugin whose names cache and phones cache both know the uid 1 only. -/
def warmPlugin : ContactsPlugin :=
  { ContactsPlugin.fresh with
    namesCache := [(1, "Alice")],
    phonesCache := [(1, [{ number := "555", type := 2, label := "mobile" }])] }

/-- A `RESPONSE` package whose entry 0 has one string instead of three. -/
def shortContactResponse : NetworkPackage :=
  { type := PACKAGE_TYPE_CONTACTS_RESPONSE, body := [("0", Value.strList ["Alice"])] }

/-- A `RESPONSE` package whose entry 0 is well formed and whose entry 1 has two strings
instead of three. -/
def pairContactResponse : NetworkPackage :=
  { type := PACKAGE_TYPE_CONTACTS_RESPONSE,
    body := [("0", Value.strList ["Alice", "mobile", "555"]),
             ("1", Value.strList ["Bob", "home"])] }

/-- A response package without the `uids` key. -/
def keylessResponse : NetworkPackage :=
  { type := PACKAGE_TYPE_CONTACTS_RESPONSE_NAMES, body := [("1", Value.str "Alice")] }

/-- A `RESPONSE_NAMES` package listing the uids 1, 2 and 3 and lacking the key of uid 2. -/
def gappedNamesReply : NetworkPackage :=
  { type := PACKAGE_TYPE_CONTACTS_RESPONSE_NAMES,
    body := [("uids", Value.strList ["1", "2", "3"]), ("1", Value.str "Alice"),
             ("3", Value.str "Carol")] }

/-- A `RESPONSE_NAMES` package listing "1", "01" and "2": "1" and "01" have a key of
their own, "2" has none. -/
def aliasedNamesReply : NetworkPackage :=
  { type := PACKAGE_TYPE_CONTACTS_RESPONSE_NAMES,
    body := [("uids", Value.strList ["1", "01", "2"]), ("1", Value.str "Alice"),
             ("01", Value.str "Bob")] }

/-- A `RESPONSE_PHONES` package listing "1" and "01", each with one complete entry. -/
def aliasedPhonesReply : NetworkPackage :=
  { type := PACKAGE_TYPE_CONTACTS_RESPONSE_PHONES,
    body := [("uids", Value.strList ["1", "01"]),
             ("1", Value.listList [["555", "2", "mobile"]]),
             ("01", Value.listList [["777", "1", "home"]])] }

/-- A `RESPONSE_PHONES` package for the uid 1 with a short entry between two complete
ones. -/
def phonesReply : NetworkPackage :=
  { type := PACKAGE_TYPE_CONTACTS_RESPONSE_PHONES,
    body := [("uids", Value.strList ["1"]),
             ("1", Value.listList [["555", "2", "mobile"], ["777"], ["666", "1", "home"]])] }

/-- A `RESPONSE` package with complete entries at the indices 0, 1 and 3 and none at 2. -/
def gappedContactsResponse : NetworkPackage :=
  { type := PACKAGE_TYPE_CONTACTS_RESPONSE,
    body := [("0", Value.strList ["Alice", "mobile", "555"]),
             ("1", Value.strList ["Bob", "home", "666"]),
             ("3", Value.strList ["Dan", "work", "888"])] }

/-- An event loop that returns at once, whatever its timer and signal, with the plugin
as it found it. -/
def returnAtOnce (_timer : QTimer) (_reply : ContactsSignal) (p : ContactsPlugin) :
    Option ContactsPlugin :=
  some p

/-! ## Lemmas on the containers and the registry -/

theorem QMap.find_insert_self {κ α : Type} [DecidableEq κ] (m : List (κ × α)) (k : κ) (v : α) :
    QMap.find (QMap.insert m k v) k = some v := by
  induction m with
  | nil => simp [QMap.insert, QMap.find]
  | cons e m ih =>
    obtain ⟨k', v'⟩ := e
    by_cases h : k' = k
    · simp [QMap.insert, QMap.find, h]
    · simp [QMap.insert, QMap.find, h, ih]

theorem QMap.find_insert_ne {κ α : Type} [DecidableEq κ] (m : List (κ × α)) (k j : κ) (v : α)
    (h : j ≠ k) : QMap.find (QMap.insert m k v) j = QMap.find m j := by
  induction m with
  | nil => simp [QMap.insert, QMap.find, Ne.symm h]
  | cons e m ih =>
    obtain ⟨k', v'⟩ := e
    by_cases hk : k' = k
    · subst hk
      simp [QMap.insert, QMap.find, Ne.symm h]
    · by_cases hj : k' = j
      · subst hj
        simp [QMap.insert, QMap.find, hk]
      · simp [QMap.insert, QMap.find, hk, hj, ih]

theorem QMap.keys_insert_of_find_some {κ α : Type} [DecidableEq κ] (m : List (κ × α)) (k : κ)
    (v w : α) (h : QMap.find m k = some w) :
    QMap.keys (QMap.insert m k v) = QMap.keys m := by
  induction m with
  | nil => simp [QMap.find] at h
  | cons e m ih =>
    obtain ⟨k', v'⟩ := e
    by_cases hk : k' = k
    · simp [QMap.insert, QMap.keys, hk]
    · simp only [QMap.find, hk, if_false] at h
      have := ih h
      simp only [QMap.keys] at this
      simp [QMap.insert, QMap.keys, hk, this]

theorem QMap.keys_insert_of_find_none {κ α : Type} [DecidableEq κ] (m : List (κ × α)) (k : κ)
    (v : α) (h : QMap.find m k = none) :
    QMap.keys (QMap.insert m k v) = QMap.keys m ++ [k] := by
  induction m with
  | nil => simp [QMap.insert, QMap.keys]
  | cons e m ih =>
    obtain ⟨k', v'⟩ := e
    by_cases hk : k' = k
    · simp [QMap.find, hk] at h
    · simp only [QMap.find, hk, if_false] at h
      have := ih h
      simp only [QMap.keys] at this
      simp [QMap.insert, QMap.keys, hk, this]

theorem QMap.find_remove_self {κ α : Type} [DecidableEq κ] (m : List (κ × α)) (k : κ) :
    QMap.find (QMap.remove m k) k = none := by
  induction m with
  | nil => simp [QMap.remove, QMap.find]
  | cons e m ih =>
    obtain ⟨k', v'⟩ := e
    by_cases hk : k' = k
    · simpa [QMap.remove, hk] using ih
    · simpa [QMap.remove, QMap.find, hk] using ih

theorem QMap.find_remove_ne {κ α : Type} [DecidableEq κ] (m : List (κ × α)) (k j : κ)
    (h : j ≠ k) : QMap.find (QMap.remove m k) j = QMap.find m j := by
  induction m with
  | nil => simp [QMap.remove, QMap.find]
  | cons e m ih =>
    obtain ⟨k', v'⟩ := e
    by_cases hk : k' = k
    · subst hk
      simpa [QMap.remove, QMap.find, Ne.symm h] using ih
    · by_cases hj : k' = j
      · subst hj
        simp [QMap.remove, QMap.find, hk]
      · simpa [QMap.remove, QMap.find, hk, hj] using ih

theorem QMap.keys_remove {κ α : Type} [DecidableEq κ] (m : List (κ × α)) (k : κ) :
    QMap.keys (QMap.remove m k) = (QMap.keys m).filter (fun j => decide (j ≠ k)) := by
  simp [QMap.keys, QMap.remove, List.filter_map, Function.comp_def]

theorem QMap.mem_of_find {κ α : Type} [DecidableEq κ] (m : List (κ × α)) (k : κ) (v : α)
    (h : QMap.find m k = some v) : (k, v) ∈ m := by
  induction m with
  | nil => simp [QMap.find] at h
  | cons e m ih =>
    obtain ⟨k', v'⟩ := e
    by_cases hk : k' = k
    · simp only [QMap.find, hk, if_true, Option.some.injEq] at h
      simp [hk, h]
    · simp only [QMap.find, hk, if_false] at h
      exact List.mem_cons_of_mem _ (ih h)

theorem QMap.mem_insert {κ α : Type} [DecidableEq κ] (m : List (κ × α)) (k : κ) (v : α)
    (e : κ × α) (h : e ∈ QMap.insert m k v) : e = (k, v) ∨ e ∈ m := by
  induction m with
  | nil => simpa [QMap.insert] using h
  | cons e' m ih =>
    obtain ⟨k', v'⟩ := e'
    by_cases hk : k' = k
    · simp only [QMap.insert, hk, if_true, List.mem_cons] at h
      rcases h with h | h
      · exact Or.inl h
      · exact Or.inr (List.mem_cons_of_mem _ h)
    · simp only [QMap.insert, hk, if_false, List.mem_cons] at h
      rcases h with h | h
      · exact Or.inr (by simp [h])
      · rcases ih h with h' | h'
        · exact Or.inl h'
        · exact Or.inr (List.mem_cons_of_mem _ h')

theorem QMap.mem_remove {κ α : Type} [DecidableEq κ] (m : List (κ × α)) (k : κ)
    (e : κ × α) (h : e ∈ QMap.remove m k) : e ∈ m := by
  simp only [QMap.remove, List.mem_filter] at h
  exact h.1

theorem Device.reachable_addLink (device : Device) (dl : DeviceLink) :
    (device.addLink dl).1.reachable = true := by
  simp [Device.addLink, Device.reachable]

/-! ## Discovery: `Daemon::onNewDeviceLink` -/

theorem Daemon.onNewDeviceLink_known (d : Daemon) (np : NetworkPackage) (dl : DeviceLink)
    (device : Device) (h : QMap.find d.mDevices (np.getQString "deviceId") = some device) :
    d.onNewDeviceLink np dl =
      { mDevices := QMap.insert d.mDevices (np.getQString "deviceId") (device.addLink dl).1,
        emitted := d.emitted ++
          ((if device.links.isEmpty = true then
              [{ signal := DaemonSignal.deviceVisibilityChanged device.id true,
                 registry := QMap.insert d.mDevices (np.getQString "deviceId")
                   (device.addLink dl).1 }]
            else []) ++
           [{ signal := DaemonSignal.deviceVisibilityChanged (np.getQString "deviceId") true,
              registry := QMap.insert d.mDevices (np.getQString "deviceId")
                (device.addLink dl).1 }]) } := by
  unfold Daemon.onNewDeviceLink
  simp only [h]
  by_cases he : device.links.isEmpty = true
  · simp [Daemon.onDeviceReachableStatusChanged, Daemon.emit, Device.addLink, he,
      Device.reachable]
  · simp [Daemon.emit, Device.addLink, he]

theorem Daemon.onNewDeviceLink_unknown (d : Daemon) (np : NetworkPackage) (dl : DeviceLink)
    (h : QMap.find d.mDevices (np.getQString "deviceId") = none) :
    d.onNewDeviceLink np dl =
      { mDevices := QMap.insert d.mDevices (np.getQString "deviceId")
          (Device.discovered (np.getQString "deviceId") (np.getQString "deviceName") dl),
        emitted := d.emitted ++
          [{ signal := DaemonSignal.deviceAdded (np.getQString "deviceId"),
             registry := QMap.insert d.mDevices (np.getQString "deviceId")
               (Device.discovered (np.getQString "deviceId") (np.getQString "deviceName") dl) },
           { signal := DaemonSignal.deviceVisibilityChanged (np.getQString "deviceId") true,
             registry := QMap.insert d.mDevices (np.getQString "deviceId")
               (Device.discovered (np.getQString "deviceId")
                 (np.getQString "deviceName") dl) }] } := by
  unfold Daemon.onNewDeviceLink
  simp [h, Daemon.emit]

theorem Daemon.signals_emitted_append (d : Daemon) (l : List Emission) (m : List (String × Device)) :
    Daemon.signals { mDevices := m, emitted := d.emitted ++ l } =
      d.signals ++ l.map Emission.signal := by
  simp [Daemon.signals]

/-- C1: `Daemon::onNewDeviceLink` on an identity package carrying `deviceId = id`.
When `id` is a key of the registry the device stored there receives `addLink(dl)`,
the keys of the registry stay as they are and no `deviceAdded` is emitted; when it is
not, `Device(id, deviceName, dl)` is stored under `id`, which is the one key added,
and `deviceAdded(id)` is emitted. In both cases the last emission is
`deviceVisibilityChanged(id, true)` and a slot connected to it sees the registry
with the change made. The registry `{}` and the package
`{deviceId: "abc", deviceName: "Phone"}` give the registry `{"abc"}` and the signals
`deviceAdded("abc")`, `deviceVisibilityChanged("abc", true)`. -/
theorem onNewDeviceLink_adds_link_or_device (d : Daemon) (np : NetworkPackage)
    (dl : DeviceLink) (id : String)
    (hid : QMap.find np.body "deviceId" = some (Value.str id)) :
    (∀ device, QMap.find d.mDevices id = some device →
      QMap.find (d.onNewDeviceLink np dl).mDevices id = some (device.addLink dl).1 ∧
      QMap.keys (d.onNewDeviceLink np dl).mDevices = QMap.keys d.mDevices ∧
      ∀ i, DaemonSignal.deviceAdded i ∉
        (d.onNewDeviceLink np dl).signals.drop d.signals.length) ∧
    (QMap.find d.mDevices id = none →
      QMap.find (d.onNewDeviceLink np dl).mDevices id =
        some (Device.discovered id (np.getQString "deviceName") dl) ∧
      QMap.keys (d.onNewDeviceLink np dl).mDevices = QMap.keys d.mDevices ++ [id] ∧
      (d.onNewDeviceLink np dl).signals =
        d.signals ++ [DaemonSignal.deviceAdded id,
          DaemonSignal.deviceVisibilityChanged id true]) ∧
    (∀ k, k ≠ id →
      QMap.find (d.onNewDeviceLink np dl).mDevices k = QMap.find d.mDevices k) ∧
    (∃ before, (d.onNewDeviceLink np dl).emitted =
      d.emitted ++ before ++
        [{ signal := DaemonSignal.deviceVisibilityChanged id true,
           registry := (d.onNewDeviceLink np dl).mDevices }]) ∧
    ((Daemon.empty.onNewDeviceLink phoneIdentity phoneLink).mDevices =
        [("abc", { id := "abc", name := "Phone", paired := false, links := [phoneLink] })] ∧
      (Daemon.empty.onNewDeviceLink phoneIdentity phoneLink).signals =
        [DaemonSignal.deviceAdded "abc",
          DaemonSignal.deviceVisibilityChanged "abc" true]) := by
  have hget : np.getQString "deviceId" = id := by
    simp [NetworkPackage.getQString, hid]
  refine ⟨?_, ?_, ?_, ?_, by decide⟩
  · intro device hdev
    have h := Daemon.onNewDeviceLink_known d np dl device (by rw [hget]; exact hdev)
    rw [hget] at h
    rw [h]
    refine ⟨QMap.find_insert_self _ _ _, QMap.keys_insert_of_find_some _ _ _ _ hdev, ?_⟩
    intro i
    rw [Daemon.signals_emitted_append]
    by_cases he : device.links.isEmpty = true <;> simp [he]
  · intro hnone
    have h := Daemon.onNewDeviceLink_unknown d np dl (by rw [hget]; exact hnone)
    rw [hget] at h
    rw [h]
    refine ⟨QMap.find_insert_self _ _ _, QMap.keys_insert_of_find_none _ _ _ hnone, ?_⟩
    rw [Daemon.signals_emitted_append]
    simp
  · intro k hk
    cases hdev : QMap.find d.mDevices id with
    | none =>
      have h := Daemon.onNewDeviceLink_unknown d np dl (by rw [hget]; exact hdev)
      rw [hget] at h
      rw [h]
      exact QMap.find_insert_ne _ _ _ _ hk
    | some device =>
      have h := Daemon.onNewDeviceLink_known d np dl device (by rw [hget]; exact hdev)
      rw [hget] at h
      rw [h]
      exact QMap.find_insert_ne _ _ _ _ hk
  · cases hdev : QMap.find d.mDevices id with
    | none =>
      have h := Daemon.onNewDeviceLink_unknown d np dl (by rw [hget]; exact hdev)
      rw [hget] at h
      rw [h]
      refine ⟨[{ signal := DaemonSignal.deviceAdded id,
                 registry := QMap.insert d.mDevices id
                   (Device.discovered id (np.getQString "deviceName") dl) }], ?_⟩
      simp
    | some device =>
      have h := Daemon.onNewDeviceLink_known d np dl device (by rw [hget]; exact hdev)
      rw [hget] at h
      rw [h]
      refine ⟨(if device.links.isEmpty = true then
          [{ signal := DaemonSignal.deviceVisibilityChanged device.id true,
             registry := QMap.insert d.mDevices id (device.addLink dl).1 }]
        else []), ?_⟩
      simp

/-- The discovery of the unknown device "abc" satisfies the hypotheses of C1. -/
theorem onNewDeviceLink_adds_link_or_device_witness :
    QMap.find phoneIdentity.body "deviceId" = some (Value.str "abc") ∧
    QMap.find Daemon.empty.mDevices "abc" = none ∧
    QMap.keys (Daemon.empty.onNewDeviceLink phoneIdentity phoneLink).mDevices =
      QMap.keys Daemon.empty.mDevices ++ ["abc"] :=
  ⟨by decide, by decide,
    ((onNewDeviceLink_adds_link_or_device Daemon.empty phoneIdentity phoneLink "abc"
      (by decide)).2.1 (by decide)).2.1⟩

/-! ## Reachability changes: `Daemon::onDeviceReachableStatusChanged` -/

theorem Daemon.onDeviceReachableStatusChanged_removed (d : Daemon) (device : Device)
    (hr : device.reachable = false) (hp : device.paired = false) :
    d.onDeviceReachableStatusChanged device =
      { mDevices := QMap.remove d.mDevices device.id,
        emitted := d.emitted ++
          [{ signal := DaemonSignal.deviceVisibilityChanged device.id false,
             registry := d.mDevices },
           { signal := DaemonSignal.deviceRemoved device.id, registry := d.mDevices }] } := by
  simp [Daemon.onDeviceReachableStatusChanged, Daemon.emit, hr, hp]

theorem Daemon.onDeviceReachableStatusChanged_kept (d : Daemon) (device : Device)
    (h : device.reachable = true ∨ device.paired = true) :
    d.onDeviceReachableStatusChanged device =
      { mDevices := d.mDevices,
        emitted := d.emitted ++
          [{ signal := DaemonSignal.deviceVisibilityChanged device.id device.reachable,
             registry := d.mDevices }] } := by
  rcases h with h | h
  · simp [Daemon.onDeviceReachableStatusChanged, Daemon.emit, h]
  · by_cases hr : device.reachable = true
    · simp [Daemon.onDeviceReachableStatusChanged, Daemon.emit, hr]
    · simp [Daemon.onDeviceReachableStatusChanged, Daemon.emit, hr, h]

/-- C2: `Daemon::onDeviceReachableStatusChanged` for a device `device` of the
registry that reports a reachability change. When the device is unreachable and not
paired its identifier, a key before, leaves the keys of the registry and
`deviceRemoved(id)` is
emitted (after `deviceVisibilityChanged(id, false)`); when it is reachable, or
paired, the registry is unchanged and no `deviceRemoved` is emitted. Whatever the
case, the entry of every other key is the one it was. -/
theorem onDeviceReachableStatusChanged_removes_unpaired_unreachable (d : Daemon)
    (device : Device) (hin : QMap.find d.mDevices device.id = some device) :
    (device.reachable = false ∧ device.paired = false →
      device.id ∈ QMap.keys d.mDevices ∧
      QMap.find (d.onDeviceReachableStatusChanged device).mDevices device.id = none ∧
      QMap.keys (d.onDeviceReachableStatusChanged device).mDevices =
        (QMap.keys d.mDevices).filter (fun k => decide (k ≠ device.id)) ∧
      (d.onDeviceReachableStatusChanged device).signals =
        d.signals ++ [DaemonSignal.deviceVisibilityChanged device.id false,
          DaemonSignal.deviceRemoved device.id]) ∧
    (device.reachable = true ∨ device.paired = true →
      (d.onDeviceReachableStatusChanged device).mDevices = d.mDevices ∧
      ∀ i, DaemonSignal.deviceRemoved i ∉
        (d.onDeviceReachableStatusChanged device).signals.drop d.signals.length) ∧
    (∀ k, k ≠ device.id →
      QMap.find (d.onDeviceReachableStatusChanged device).mDevices k =
        QMap.find d.mDevices k) := by
  refine ⟨?_, ?_, ?_⟩
  · rintro ⟨hr, hp⟩
    rw [Daemon.onDeviceReachableStatusChanged_removed d device hr hp]
    refine ⟨List.mem_map_of_mem Prod.fst (QMap.mem_of_find _ _ _ hin),
      QMap.find_remove_self _ _, QMap.keys_remove _ _, ?_⟩
    rw [Daemon.signals_emitted_append]
    simp
  · intro h
    rw [Daemon.onDeviceReachableStatusChanged_kept d device h]
    refine ⟨rfl, ?_⟩
    intro i
    rw [Daemon.signals_emitted_append]
    simp
  · intro k hk
    by_cases h : device.reachable = true ∨ device.paired = true
    · rw [Daemon.onDeviceReachableStatusChanged_kept d device h]
    · have hr : device.reachable = false := by
        cases hrr : device.reachable
        · rfl
        · exact absurd (Or.inl hrr) h
      have hp : device.paired = false := by
        cases hpp : device.paired
        · rfl
        · exact absurd (Or.inr hpp) h
      rw [Daemon.onDeviceReachableStatusChanged_removed d device hr hp]
      exact QMap.find_remove_ne _ _ _ hk

/-- The unpaired device "abc" without a link satisfies the hypotheses of C2 and is
removed. -/
theorem onDeviceReachableStatusChanged_removes_unpaired_unreachable_witness :
    QMap.find strandedDaemon.mDevices "abc" =
      some { id := "abc", name := "Phone", paired := false, links := [] } ∧
    QMap.find (strandedDaemon.onDeviceReachableStatusChanged
      { id := "abc", name := "Phone", paired := false, links := [] }).mDevices "abc" = none :=
  ⟨by decide,
    ((onDeviceReachableStatusChanged_removes_unpaired_unreachable strandedDaemon
      { id := "abc", name := "Phone", paired := false, links := [] } (by decide)).1
        ⟨by decide, by decide⟩).2.1⟩

/-! ## Identity packages without an identifier -/

/-- C4, as stated, fails: an identity package without a `deviceId` key is not
dropped. On the empty registry it makes a device under the identifier `""` and both
`deviceAdded("")` and `deviceVisibilityChanged("", true)` are emitted. -/
theorem onNewDeviceLink_missing_deviceId_not_dropped :
    anonymousIdentity.has "deviceId" = false ∧
    (Daemon.empty.onNewDeviceLink anonymousIdentity phoneLink).mDevices ≠
      Daemon.empty.mDevices ∧
    QMap.find (Daemon.empty.onNewDeviceLink anonymousIdentity phoneLink).mDevices "" =
      some (Device.discovered "" "Phone" phoneLink) ∧
    (Daemon.empty.onNewDeviceLink anonymousIdentity phoneLink).signals =
      [DaemonSignal.deviceAdded "", DaemonSignal.deviceVisibilityChanged "" true] := by
  decide

/-- C4, amended: `Daemon::onNewDeviceLink` on an identity package whose body has no
`deviceId` key reads the identifier as the empty string and handles the event as
the discovery of `""`: the device stored under `""` receives `addLink(dl)` with the
keys unchanged and no `deviceAdded`, or, when there is none,
`Device("", deviceName, dl)` is stored under `""` and `deviceAdded("")` is emitted.
In both cases the last emission is `deviceVisibilityChanged("", true)`, and the
entry of every other key is the one it was. -/
theorem onNewDeviceLink_missing_deviceId_is_empty_id (d : Daemon) (np : NetworkPackage)
    (dl : DeviceLink) (hno : np.has "deviceId" = false) :
    (∀ device, QMap.find d.mDevices "" = some device →
      QMap.find (d.onNewDeviceLink np dl).mDevices "" = some (device.addLink dl).1 ∧
      QMap.keys (d.onNewDeviceLink np dl).mDevices = QMap.keys d.mDevices ∧
      ∀ i, DaemonSignal.deviceAdded i ∉
        (d.onNewDeviceLink np dl).signals.drop d.signals.length) ∧
    (QMap.find d.mDevices "" = none →
      QMap.find (d.onNewDeviceLink np dl).mDevices "" =
        some (Device.discovered "" (np.getQString "deviceName") dl) ∧
      QMap.keys (d.onNewDeviceLink np dl).mDevices = QMap.keys d.mDevices ++ [""] ∧
      (d.onNewDeviceLink np dl).signals =
        d.signals ++ [DaemonSignal.deviceAdded "",
          DaemonSignal.deviceVisibilityChanged "" true]) ∧
    (∀ k, k ≠ "" →
      QMap.find (d.onNewDeviceLink np dl).mDevices k = QMap.find d.mDevices k) ∧
    (∃ before, (d.onNewDeviceLink np dl).emitted =
      d.emitted ++ before ++
        [{ signal := DaemonSignal.deviceVisibilityChanged "" true,
           registry := (d.onNewDeviceLink np dl).mDevices }]) := by
  have hget : np.getQString "deviceId" = "" := by
    have hf : QMap.find np.body "deviceId" = none := by
      simpa [NetworkPackage.has, QMap.contains] using hno
    simp [NetworkPackage.getQString, hf]
  refine ⟨?_, ?_, ?_, ?_⟩
  · intro device hdev
    have h := Daemon.onNewDeviceLink_known d np dl device (by rw [hget]; exact hdev)
    rw [hget] at h
    rw [h]
    refine ⟨QMap.find_insert_self _ _ _, QMap.keys_insert_of_find_some _ _ _ _ hdev, ?_⟩
    intro i
    rw [Daemon.signals_emitted_append]
    by_cases he : device.links.isEmpty = true <;> simp [he]
  · intro hnone
    have h := Daemon.onNewDeviceLink_unknown d np dl (by rw [hget]; exact hnone)
    rw [hget] at h
    rw [h]
    refine ⟨QMap.find_insert_self _ _ _, QMap.keys_insert_of_find_none _ _ _ hnone, ?_⟩
    rw [Daemon.signals_emitted_append]
    simp
  · intro k hk
    cases hdev : QMap.find d.mDevices "" with
    | none =>
      have h := Daemon.onNewDeviceLink_unknown d np dl (by rw [hget]; exact hdev)
      rw [hget] at h
      rw [h]
      exact QMap.find_insert_ne _ _ _ _ hk
    | some device =>
      have h := Daemon.onNewDeviceLink_known d np dl device (by rw [hget]; exact hdev)
      rw [hget] at h
      rw [h]
      exact QMap.find_insert_ne _ _ _ _ hk
  · cases hdev : QMap.find d.mDevices "" with
    | none =>
      have h := Daemon.onNewDeviceLink_unknown d np dl (by rw [hget]; exact hdev)
      rw [hget] at h
      rw [h]
      refine ⟨[{ signal := DaemonSignal.deviceAdded "",
                 registry := QMap.insert d.mDevices ""
                   (Device.discovered "" (np.getQString "deviceName") dl) }], ?_⟩
      simp
    | some device =>
      have h := Daemon.onNewDeviceLink_known d np dl device (by rw [hget]; exact hdev)
      rw [hget] at h
      rw [h]
      refine ⟨(if device.links.isEmpty = true then
          [{ signal := DaemonSignal.deviceVisibilityChanged device.id true,
             registry := QMap.insert d.mDevices "" (device.addLink dl).1 }]
        else []), ?_⟩
      simp

/-- The package without a `deviceId` key on the empty registry satisfies the
hypotheses of the amended C4. -/
theorem onNewDeviceLink_missing_deviceId_is_empty_id_witness :
    anonymousIdentity.has "deviceId" = false ∧
    QMap.find Daemon.empty.mDevices "" = none ∧
    (Daemon.empty.onNewDeviceLink anonymousIdentity phoneLink).signals =
      Daemon.empty.signals ++ [DaemonSignal.deviceAdded "",
        DaemonSignal.deviceVisibilityChanged "" true] :=
  ⟨by decide, by decide,
    ((onNewDeviceLink_missing_deviceId_is_empty_id Daemon.empty anonymousIdentity phoneLink
      (by decide)).2.1 (by decide)).2.2⟩

/-! ## `deviceVisibilityChanged` along sequences of inputs -/

theorem visibilityOf_append (id : String) (l₁ l₂ : List DaemonSignal) :
    visibilityOf id (l₁ ++ l₂) = visibilityOf id l₁ ++ visibilityOf id l₂ := by
  induction l₁ with
  | nil => simp [visibilityOf]
  | cons s l ih =>
    cases s with
    | deviceAdded i => simpa [visibilityOf] using ih
    | deviceRemoved i => simpa [visibilityOf] using ih
    | deviceVisibilityChanged i b =>
      by_cases hi : i = id
      · simp [visibilityOf, hi, ih]
      · simp [visibilityOf, hi, ih]

theorem Daemon.visibilitySince_emitted_append (d : Daemon) (l : List Emission)
    (m : List (String × Device)) (id : String) :
    d.visibilitySince { mDevices := m, emitted := d.emitted ++ l } id =
      visibilityOf id (l.map Emission.signal) := by
  simp [Daemon.visibilitySince, Daemon.signals]

theorem Daemon.visibilitySince_self (d : Daemon) (m : List (String × Device)) (id : String) :
    d.visibilitySince { mDevices := m, emitted := d.emitted } id = [] := by
  have h : List.drop d.emitted.length (List.map Emission.signal d.emitted) = [] :=
    List.drop_eq_nil_of_le (by simp)
  simp [Daemon.visibilitySince, Daemon.signals, visibilityOf, h]

theorem Daemon.onLinkLost_unknown (d : Daemon) (id : String) (dl : DeviceLink)
    (h : QMap.find d.mDevices id = none) : d.onLinkLost id dl = d := by
  simp [Daemon.onLinkLost, h]

theorem Daemon.onLinkLost_quiet (d : Daemon) (id : String) (dl : DeviceLink) (device : Device)
    (h : QMap.find d.mDevices id = some device)
    (hq : device.reachable = false ∨ (device.removeLink dl).1.reachable = true) :
    d.onLinkLost id dl =
      { mDevices := QMap.insert d.mDevices id (device.removeLink dl).1,
        emitted := d.emitted } := by
  have hr : (device.removeLink dl).2 = false := by
    rcases hq with hq | hq
    · simp only [Device.reachable, Bool.not_eq_false'] at hq
      simp [Device.removeLink, hq]
    · simp only [Device.reachable, Device.removeLink, Bool.not_eq_true'] at hq
      simp [Device.removeLink, hq]
  simp [Daemon.onLinkLost, h, hr]

theorem Daemon.onLinkLost_last (d : Daemon) (id : String) (dl : DeviceLink) (device : Device)
    (h : QMap.find d.mDevices id = some device)
    (h1 : device.reachable = true) (h2 : (device.removeLink dl).1.reachable = false) :
    d.onLinkLost id dl =
      ({ mDevices := QMap.insert d.mDevices id (device.removeLink dl).1,
         emitted := d.emitted } : Daemon).onDeviceReachableStatusChanged
        (device.removeLink dl).1 := by
  have hr : (device.removeLink dl).2 = true := by
    simp only [Device.reachable, Bool.not_eq_true', Bool.not_eq_false'] at h1 h2
    simp only [Device.removeLink] at h2
    simp [Device.removeLink, h1, h2]
  simp [Daemon.onLinkLost, h, hr]

theorem Daemon.keyedById_onDeviceReachableStatusChanged (d : Daemon) (device : Device)
    (hk : d.KeyedById) : (d.onDeviceReachableStatusChanged device).KeyedById := by
  intro e he
  by_cases h : device.reachable = true ∨ device.paired = true
  · rw [Daemon.onDeviceReachableStatusChanged_kept d device h] at he
    exact hk e he
  · have hr : device.reachable = false := by
      cases hrr : device.reachable
      · rfl
      · exact absurd (Or.inl hrr) h
    have hp : device.paired = false := by
      cases hpp : device.paired
      · rfl
      · exact absurd (Or.inr hpp) h
    rw [Daemon.onDeviceReachableStatusChanged_removed d device hr hp] at he
    exact hk e (QMap.mem_remove _ _ _ he)

theorem Daemon.keyedById_insert (d : Daemon) (id : String) (device : Device)
    (l : List Emission) (hk : d.KeyedById) (hid : device.id = id) :
    Daemon.KeyedById { mDevices := QMap.insert d.mDevices id device, emitted := l } := by
  intro e he
  rcases QMap.mem_insert _ _ _ _ he with h | h
  · rw [h]
    exact hid
  · exact hk e h

theorem Daemon.keyedById_step (d : Daemon) (input : DaemonInput) (hk : d.KeyedById) :
    (d.step input).KeyedById := by
  cases input with
  | discovery np dl =>
    simp only [Daemon.step]
    cases hdev : QMap.find d.mDevices (np.getQString "deviceId") with
    | none =>
      rw [Daemon.onNewDeviceLink_unknown d np dl hdev]
      exact Daemon.keyedById_insert d _ _ _ hk rfl
    | some device =>
      rw [Daemon.onNewDeviceLink_known d np dl device hdev]
      exact Daemon.keyedById_insert d _ _ _ hk (hk _ (QMap.mem_of_find _ _ _ hdev))
  | linkLost id dl =>
    simp only [Daemon.step]
    cases hdev : QMap.find d.mDevices id with
    | none =>
      rw [Daemon.onLinkLost_unknown d id dl hdev]
      exact hk
    | some device =>
      have hid : (device.removeLink dl).1.id = id := hk _ (QMap.mem_of_find _ _ _ hdev)
      by_cases hq : device.reachable = false ∨ (device.removeLink dl).1.reachable = true
      · rw [Daemon.onLinkLost_quiet d id dl device hdev hq]
        exact Daemon.keyedById_insert d _ _ _ hk hid
      · have h1 : device.reachable = true := by
          cases hrr : device.reachable
          · exact absurd (Or.inl hrr) hq
          · rfl
        have h2 : (device.removeLink dl).1.reachable = false := by
          cases hrr : (device.removeLink dl).1.reachable
          · rfl
          · exact absurd (Or.inr hrr) hq
        rw [Daemon.onLinkLost_last d id dl device hdev h1 h2]
        exact Daemon.keyedById_onDeviceReachableStatusChanged _ _
          (Daemon.keyedById_insert d _ _ _ hk hid)

theorem Daemon.keyedById_run (inputs : List DaemonInput) (d : Daemon) (hk : d.KeyedById) :
    (d.run inputs).KeyedById := by
  induction inputs generalizing d with
  | nil => exact hk
  | cons input rest ih =>
    exact ih (d.step input) (Daemon.keyedById_step d input hk)

theorem Daemon.visibilitySince_onNewDeviceLink (d : Daemon) (hk : d.KeyedById)
    (np : NetworkPackage) (dl : DeviceLink) (id : String) :
    d.visibilitySince (d.onNewDeviceLink np dl) id =
      if np.getQString "deviceId" = id then
        match QMap.find d.mDevices id with
        | some device => if device.reachable = true then [true] else [true, true]
        | none => [true]
      else [] := by
  cases hdev : QMap.find d.mDevices (np.getQString "deviceId") with
  | none =>
    rw [Daemon.onNewDeviceLink_unknown d np dl hdev, Daemon.visibilitySince_emitted_append]
    by_cases hid : np.getQString "deviceId" = id
    · rw [hid] at hdev
      simp [visibilityOf, hid, hdev]
    · simp [visibilityOf, hid]
  | some device =>
    have hdid : device.id = np.getQString "deviceId" := hk _ (QMap.mem_of_find _ _ _ hdev)
    rw [Daemon.onNewDeviceLink_known d np dl device hdev, Daemon.visibilitySince_emitted_append]
    by_cases hid : np.getQString "deviceId" = id
    · rw [hid] at hdev hdid
      by_cases he : device.links.isEmpty = true
      · simp [visibilityOf, hid, hdev, he, hdid, Device.reachable]
      · simp [visibilityOf, hid, hdev, he, Device.reachable]
    · by_cases he : device.links.isEmpty = true
      · simp [visibilityOf, hid, he, hdid]
      · simp [visibilityOf, hid, he]

theorem Daemon.visibilitySince_onLinkLost (d : Daemon) (hk : d.KeyedById)
    (j : String) (dl : DeviceLink) (id : String) :
    d.visibilitySince (d.onLinkLost j dl) id =
      if j = id then
        match QMap.find d.mDevices id with
        | some device =>
          if device.reachable = true ∧ (device.removeLink dl).1.reachable = false then [false]
          else []
        | none => []
      else [] := by
  cases hdev : QMap.find d.mDevices j with
  | none =>
    rw [Daemon.onLinkLost_unknown d j dl hdev]
    have h := Daemon.visibilitySince_self d d.mDevices id
    by_cases hid : j = id
    · rw [hid] at hdev
      simpa [hid, hdev] using h
    · simpa [hid] using h
  | some device =>
    have hdid : (device.removeLink dl).1.id = j := hk _ (QMap.mem_of_find _ _ _ hdev)
    by_cases hq : device.reachable = false ∨ (device.removeLink dl).1.reachable = true
    · rw [Daemon.onLinkLost_quiet d j dl device hdev hq, Daemon.visibilitySince_self]
      by_cases hid : j = id
      · rw [hid] at hdev
        rcases hq with hq | hq <;> simp [hid, hdev, hq]
      · simp [hid]
    · have h1 : device.reachable = true := by
        cases hrr : device.reachable
        · exact absurd (Or.inl hrr) hq
        · rfl
      have h2 : (device.removeLink dl).1.reachable = false := by
        cases hrr : (device.removeLink dl).1.reachable
        · rfl
        · exact absurd (Or.inr hrr) hq
      rw [Daemon.onLinkLost_last d j dl device hdev h1 h2]
      have hvis : ∀ next : Daemon, d.visibilitySince next id =
          Daemon.visibilitySince
            { mDevices := QMap.insert d.mDevices j (device.removeLink dl).1,
              emitted := d.emitted } next id := fun _ => rfl
      rw [hvis]
      by_cases hp : (device.removeLink dl).1.paired = true
      · rw [Daemon.onDeviceReachableStatusChanged_kept _ _ (Or.inr hp),
          Daemon.visibilitySince_emitted_append]
        by_cases hid : j = id
        · rw [hid] at hdev hdid
          simp [visibilityOf, hid, hdev, h1, h2, hdid]
        · simp [visibilityOf, hid, hdid]
      · have hp' : (device.removeLink dl).1.paired = false := by
          cases hpp : (device.removeLink dl).1.paired
          · rfl
          · exact absurd hpp hp
        rw [Daemon.onDeviceReachableStatusChanged_removed _ _ h2 hp',
          Daemon.visibilitySince_emitted_append]
        by_cases hid : j = id
        · rw [hid] at hdev hdid
          simp [visibilityOf, hid, hdev, h1, h2, hdid]
        · simp [visibilityOf, hid, hdid]


/-- C3, as stated, fails. After the discovery of "abc" over a first link the device is
reachable; a second discovery over another link leaves it reachable, yet
`deviceVisibilityChanged("abc", true)` is emitted once more. And when the remembered
paired device "abc", unreachable, is discovered, the one transition to reachable
makes the daemon emit `deviceVisibilityChanged("abc", true)` twice. -/
theorem deviceVisibilityChanged_not_once_per_transition :
    ((QMap.find (Daemon.empty.run [DaemonInput.discovery phoneIdentity phoneLink]).mDevices
        "abc").map Device.reachable = some true ∧
      (QMap.find ((Daemon.empty.run [DaemonInput.discovery phoneIdentity phoneLink]).step
        (DaemonInput.discovery phoneIdentity secondLink)).mDevices "abc").map
          Device.reachable = some true ∧
      (Daemon.empty.run [DaemonInput.discovery phoneIdentity phoneLink]).visibilitySince
        ((Daemon.empty.run [DaemonInput.discovery phoneIdentity phoneLink]).step
          (DaemonInput.discovery phoneIdentity secondLink)) "abc" = [true]) ∧
    ((QMap.find rememberedDaemon.mDevices "abc").map Device.reachable = some false ∧
      rememberedDaemon.visibilitySince
        (rememberedDaemon.step (DaemonInput.discovery phoneIdentity phoneLink)) "abc" =
          [true, true]) := by
  decide

/-- C3, amended: after any sequence of discoveries and link losses handled from a
registry that stores every device under its own identifier, what the daemon emits
as `deviceVisibilityChanged(id, _)` for the next input is: for a discovery of `id`,
`true` once when the device is new or already reachable (no matter that
reachability did not change in the latter case) and `true` twice when a known
unreachable device becomes reachable (the slot of `reachableStatusChanged`, then
`onNewDeviceLink` itself); for the loss of a link of `id`, `false` once when the
device goes from reachable to unreachable and nothing otherwise; nothing for an input
that concerns another identifier. -/
theorem deviceVisibilityChanged_per_input (d0 : Daemon) (h0 : d0.KeyedById)
    (inputs : List DaemonInput) (id : String) (np : NetworkPackage) (dl : DeviceLink) :
    (np.getQString "deviceId" = id →
      (QMap.find (d0.run inputs).mDevices id = none →
        (d0.run inputs).visibilitySince ((d0.run inputs).onNewDeviceLink np dl) id =
          [true]) ∧
      (∀ device, QMap.find (d0.run inputs).mDevices id = some device →
        device.reachable = true →
        (d0.run inputs).visibilitySince ((d0.run inputs).onNewDeviceLink np dl) id =
          [true]) ∧
      (∀ device, QMap.find (d0.run inputs).mDevices id = some device →
        device.reachable = false →
        (d0.run inputs).visibilitySince ((d0.run inputs).onNewDeviceLink np dl) id =
          [true, true])) ∧
    (np.getQString "deviceId" ≠ id →
      (d0.run inputs).visibilitySince ((d0.run inputs).onNewDeviceLink np dl) id = []) ∧
    (∀ device, QMap.find (d0.run inputs).mDevices id = some device →
      device.reachable = true → (device.removeLink dl).1.reachable = false →
      (d0.run inputs).visibilitySince ((d0.run inputs).onLinkLost id dl) id = [false]) ∧
    (∀ device, QMap.find (d0.run inputs).mDevices id = some device →
      device.reachable = false ∨ (device.removeLink dl).1.reachable = true →
      (d0.run inputs).visibilitySince ((d0.run inputs).onLinkLost id dl) id = []) ∧
    (QMap.find (d0.run inputs).mDevices id = none →
      (d0.run inputs).visibilitySince ((d0.run inputs).onLinkLost id dl) id = []) ∧
    (∀ j, j ≠ id →
      (d0.run inputs).visibilitySince ((d0.run inputs).onLinkLost j dl) id = []) := by
  have hk := Daemon.keyedById_run inputs d0 h0
  refine ⟨?_, ?_, ?_, ?_, ?_, ?_⟩
  · intro hid
    refine ⟨?_, ?_, ?_⟩
    · intro hnone
      rw [Daemon.visibilitySince_onNewDeviceLink _ hk]
      simp [hid, hnone]
    · intro device hdev hr
      rw [Daemon.visibilitySince_onNewDeviceLink _ hk]
      simp [hid, hdev, hr]
    · intro device hdev hr
      rw [Daemon.visibilitySince_onNewDeviceLink _ hk]
      simp [hid, hdev, hr]
  · intro hid
    rw [Daemon.visibilitySince_onNewDeviceLink _ hk]
    simp [hid]
  · intro device hdev h1 h2
    rw [Daemon.visibilitySince_onLinkLost _ hk]
    simp [hdev, h1, h2]
  · intro device hdev hq
    rw [Daemon.visibilitySince_onLinkLost _ hk]
    rcases hq with hq | hq <;> simp [hdev, hq]
  · intro hnone
    rw [Daemon.visibilitySince_onLinkLost _ hk]
    simp [hnone]
  · intro j hj
    rw [Daemon.visibilitySince_onLinkLost _ hk]
    simp [hj]

/-- The empty registry, followed by the discovery of "abc", satisfies the hypotheses of
the amended C3; the loss of that link is then announced once. -/
theorem deviceVisibilityChanged_per_input_witness :
    Daemon.empty.KeyedById ∧
    (Daemon.empty.run [DaemonInput.discovery phoneIdentity phoneLink]).visibilitySince
      ((Daemon.empty.run [DaemonInput.discovery phoneIdentity phoneLink]).onLinkLost
        "abc" phoneLink) "abc" = [false] :=
  ⟨fun _ he => absurd he (List.not_mem_nil _),
    (deviceVisibilityChanged_per_input Daemon.empty
      (fun _ he => absurd he (List.not_mem_nil _))
      [DaemonInput.discovery phoneIdentity phoneLink] "abc" phoneIdentity phoneLink).2.2.1
      (Device.discovered "abc" "Phone" phoneLink) (by decide) (by decide) (by decide)⟩

/-! ## `QString::number` and `QString::toLongLong` -/

theorem digitValue_digitChar (k : Nat) (hk : k < 10) :
    digitValue (Nat.digitChar k) = some k := by
  interval_cases k <;> decide

theorem digitChar_plain (k : Nat) (hk : k < 10) :
    (Nat.digitChar k).isWhitespace = false ∧ Nat.digitChar k ≠ '-' ∧
      Nat.digitChar k ≠ '+' := by
  interval_cases k <;> decide

theorem parseDigits_toDigitsCore (fuel : Nat) :
    ∀ (n : Nat) (ds : List Char), n < fuel →
      parseDigits (Nat.toDigitsCore 10 fuel n ds) 0 = parseDigits ds n := by
  induction fuel with
  | zero => intro n ds h; omega
  | succ fuel ih =>
    intro n ds h
    have hd : digitValue (Nat.digitChar (n % 10)) = some (n % 10) :=
      digitValue_digitChar _ (Nat.mod_lt _ (by norm_num))
    by_cases h0 : n / 10 = 0
    · have hn : n % 10 = n := Nat.mod_eq_of_lt (by omega)
      rw [hn] at hd
      simp [Nat.toDigitsCore, h0, parseDigits, hd, hn]
    · have hlt : n / 10 < fuel := by omega
      have hn : n / 10 * 10 + n % 10 = n := by omega
      simp [Nat.toDigitsCore, h0, ih (n / 10) _ hlt, parseDigits, hd, hn]

theorem parseDigits_toDigits (n : Nat) : parseDigits (Nat.toDigits 10 n) 0 = some n := by
  simp [Nat.toDigits, parseDigits_toDigitsCore (n + 1) n [] (by omega), parseDigits]

theorem toDigitsCore_digits (fuel : Nat) :
    ∀ (n : Nat) (ds : List Char) (c : Char), c ∈ Nat.toDigitsCore 10 fuel n ds →
      (∃ k, k < 10 ∧ c = Nat.digitChar k) ∨ c ∈ ds := by
  induction fuel with
  | zero => intro n ds c h; exact Or.inr (by simpa [Nat.toDigitsCore] using h)
  | succ fuel ih =>
    intro n ds c h
    by_cases h0 : n / 10 = 0
    · simp only [Nat.toDigitsCore, h0, if_true, List.mem_cons] at h
      rcases h with h | h
      · exact Or.inl ⟨n % 10, Nat.mod_lt _ (by norm_num), h⟩
      · exact Or.inr h
    · simp only [Nat.toDigitsCore, h0, if_false] at h
      rcases ih _ _ _ h with h | h
      · exact Or.inl h
      · simp only [List.mem_cons] at h
        rcases h with h | h
        · exact Or.inl ⟨n % 10, Nat.mod_lt _ (by norm_num), h⟩
        · exact Or.inr h

theorem toDigits_digits (n : Nat) (c : Char) (h : c ∈ Nat.toDigits 10 n) :
    ∃ k, k < 10 ∧ c = Nat.digitChar k := by
  rcases toDigitsCore_digits (n + 1) n [] c h with h | h
  · exact h
  · simp at h

theorem toDigitsCore_ne_nil (fuel n : Nat) (ds : List Char) :
    Nat.toDigitsCore 10 (fuel + 1) n ds ≠ [] := by
  induction fuel generalizing n ds with
  | zero =>
    by_cases h0 : n / 10 = 0 <;> simp [Nat.toDigitsCore, h0]
  | succ fuel ih =>
    by_cases h0 : n / 10 = 0
    · simp [Nat.toDigitsCore, h0]
    · have := ih (n / 10) (Nat.digitChar (n % 10) :: ds)
      rw [Nat.toDigitsCore]
      simpa [h0] using this

theorem toDigits_ne_nil (n : Nat) : Nat.toDigits 10 n ≠ [] :=
  toDigitsCore_ne_nil n n []

theorem trimSpaces_of_plain (cs : List Char) (h : ∀ c ∈ cs, c.isWhitespace = false) :
    trimSpaces cs = cs := by
  have hdrop : ∀ l : List Char, (∀ c ∈ l, c.isWhitespace = false) →
      l.dropWhile Char.isWhitespace = l := by
    intro l hl
    cases l with
    | nil => rfl
    | cons a t => simp [List.dropWhile_cons, hl a (List.mem_cons_self _ _)]
  unfold trimSpaces
  rw [hdrop cs h, hdrop cs.reverse (fun c hc => h c (List.mem_reverse.mp hc)),
    List.reverse_reverse]

theorem parseInteger_toDigits (n : Nat) :
    parseInteger (Nat.toDigits 10 n) = some (n : Int) := by
  have hne := toDigits_ne_nil n
  have hp := parseDigits_toDigits n
  cases hds : Nat.toDigits 10 n with
  | nil => exact absurd hds hne
  | cons c rest =>
    obtain ⟨k, hk, hc⟩ := toDigits_digits n c (by rw [hds]; exact List.mem_cons_self _ _)
    have hplain := digitChar_plain k hk
    rw [hds] at hp
    rw [← hc] at hplain
    simp [parseInteger, hplain.2.1, hplain.2.2, hp]

theorem parseInteger_number (n : Int) :
    parseInteger (trimSpaces (QString.number n).data) = some n := by
  cases n with
  | ofNat m =>
    have hplain : ∀ c ∈ Nat.toDigits 10 m, c.isWhitespace = false := by
      intro c hc
      obtain ⟨k, hk, rfl⟩ := toDigits_digits m c hc
      exact (digitChar_plain k hk).1
    simp only [QString.number]
    rw [trimSpaces_of_plain _ hplain]
    exact parseInteger_toDigits m
  | negSucc m =>
    have hplain : ∀ c ∈ '-' :: Nat.toDigits 10 (m + 1), c.isWhitespace = false := by
      intro c hc
      rcases List.mem_cons.mp hc with hc | hc
      · rw [hc]; decide
      · obtain ⟨k, hk, rfl⟩ := toDigits_digits (m + 1) c hc
        exact (digitChar_plain k hk).1
    simp only [QString.number]
    rw [trimSpaces_of_plain _ hplain]
    simp [parseInteger, toDigits_ne_nil, parseDigits_toDigits, Int.negSucc_eq]

theorem QString.toLongLong_number (n : Int) (hlo : -(2 : Int) ^ 63 ≤ n)
    (hhi : n < (2 : Int) ^ 63) : QString.toLongLong (QString.number n) = n := by
  have hrange : -(2 : Int) ^ 63 ≤ n ∧ n < (2 : Int) ^ 63 := ⟨hlo, hhi⟩
  simp only [QString.toLongLong, parseInteger_number]
  rw [if_pos hrange]

/-! ## Blocking queries of the contacts plugin -/

theorem find_collectCached_aux {α : Type} (cache : List (Int × α)) (uIDs : List Int) :
    ∀ (acc : List (Int × α)) (k : Int),
      QMap.find (uIDs.foldl (copyCached cache) acc) k =
        if k ∈ uIDs ∧ (QMap.find cache k).isSome = true then QMap.find cache k
        else QMap.find acc k := by
  induction uIDs with
  | nil => intro acc k; simp
  | cons id rest ih =>
    intro acc k
    rw [List.foldl_cons, ih]
    by_cases hk : k = id
    · subst hk
      cases hc : QMap.find cache k with
      | none => simp [copyCached, hc]
      | some v => simp [copyCached, hc, QMap.find_insert_self]
    · cases hc : QMap.find cache id with
      | none => simp [copyCached, hc, hk]
      | some v => simp [copyCached, hc, hk, QMap.find_insert_ne _ _ _ _ hk]

theorem find_collectCached {α : Type} (cache : List (Int × α)) (uIDs : List Int) (k : Int) :
    QMap.find (collectCached cache uIDs) k =
      if k ∈ uIDs then QMap.find cache k else none := by
  unfold collectCached
  rw [find_collectCached_aux]
  by_cases hk : k ∈ uIDs
  · cases hc : QMap.find cache k <;> simp [hk, QMap.find]
  · simp [hk, QMap.find]

theorem filter_uncached_eq_nil {α : Type} (cache : List (Int × α)) (uIDs : List Int) :
    (uIDs.filter (fun id => !QMap.contains cache id)).length > 0 ↔
      ∃ id ∈ uIDs, QMap.contains cache id = false := by
  show 0 < _ ↔ _
  rw [List.length_pos, Ne, List.filter_eq_nil_iff]
  simp

theorem getCachedNamesForIDs_of_cached
    (exec : QTimer → ContactsSignal → ContactsPlugin → Option ContactsPlugin)
    (p : ContactsPlugin) (uIDs : List Int)
    (h : ¬ (uIDs.filter (fun id => !QMap.contains p.namesCache id)).length > 0) :
    p.getCachedNamesForIDs exec uIDs =
      { toReturn := some (collectCached p.namesCache uIDs), waited := false,
        plugin := some p } := by
  unfold ContactsPlugin.getCachedNamesForIDs
  simp only [h, if_false]

theorem getCachedNamesForIDs_of_uncached
    (exec : QTimer → ContactsSignal → ContactsPlugin → Option ContactsPlugin)
    (p : ContactsPlugin) (uIDs : List Int)
    (h : (uIDs.filter (fun id => !QMap.contains p.namesCache id)).length > 0) :
    p.getCachedNamesForIDs exec uIDs =
      { toReturn := (exec waitTimer ContactsSignal.cachedNamesAvailable
          (p.sendNamesForIDsRequest
            (uIDs.filter (fun id => !QMap.contains p.namesCache id))).2).map
              (fun p1 => collectCached p1.namesCache uIDs),
        waited := true,
        plugin := exec waitTimer ContactsSignal.cachedNamesAvailable
          (p.sendNamesForIDsRequest
            (uIDs.filter (fun id => !QMap.contains p.namesCache id))).2 } := by
  unfold ContactsPlugin.getCachedNamesForIDs
  simp only [h, if_true]
  cases hx : exec ((QTimer.create.setSingleShot true).setInterval CONTACTS_TIMEOUT_MS)
      ContactsSignal.cachedNamesAvailable
      (p.sendNamesForIDsRequest
        (uIDs.filter (fun id => !QMap.contains p.namesCache id))).2 <;>
    simp [waitTimer, hx]

theorem getCachedPhonesForIDs_of_cached
    (exec : QTimer → ContactsSignal → ContactsPlugin → Option ContactsPlugin)
    (p : ContactsPlugin) (uIDs : List Int)
    (h : ¬ (uIDs.filter (fun id => !QMap.contains p.phonesCache id)).length > 0) :
    p.getCachedPhonesForIDs exec uIDs =
      { toReturn := some (collectCached p.phonesCache uIDs), waited := false,
        plugin := some p } := by
  unfold ContactsPlugin.getCachedPhonesForIDs
  simp only [h, if_false]

theorem getCachedPhonesForIDs_of_uncached
    (exec : QTimer → ContactsSignal → ContactsPlugin → Option ContactsPlugin)
    (p : ContactsPlugin) (uIDs : List Int)
    (h : (uIDs.filter (fun id => !QMap.contains p.phonesCache id)).length > 0) :
    p.getCachedPhonesForIDs exec uIDs =
      { toReturn := (exec waitTimer ContactsSignal.cachedPhonesAvailable
          (p.sendPhonesForIDsRequest
            (uIDs.filter (fun id => !QMap.contains p.phonesCache id))).2).map
              (fun p1 => collectCached p1.phonesCache uIDs),
        waited := true,
        plugin := exec waitTimer ContactsSignal.cachedPhonesAvailable
          (p.sendPhonesForIDsRequest
            (uIDs.filter (fun id => !QMap.contains p.phonesCache id))).2 } := by
  unfold ContactsPlugin.getCachedPhonesForIDs
  simp only [h, if_true]
  cases hx : exec ((QTimer.create.setSingleShot true).setInterval CONTACTS_TIMEOUT_MS)
      ContactsSignal.cachedPhonesAvailable
      (p.sendPhonesForIDsRequest
        (uIDs.filter (fun id => !QMap.contains p.phonesCache id))).2 <;>
    simp [waitTimer, hx]

/-- When `getCachedNamesForIDs` returns, the map returned holds under every id of
`uIDs` what the names cache holds under it at that moment, and nothing else. -/
theorem find_toReturn_getCachedNamesForIDs
    (exec : QTimer → ContactsSignal → ContactsPlugin → Option ContactsPlugin)
    (p : ContactsPlugin) (uIDs : List Int) (toReturn : List (Int × String))
    (q : ContactsPlugin)
    (hret : (p.getCachedNamesForIDs exec uIDs).toReturn = some toReturn)
    (hq : (p.getCachedNamesForIDs exec uIDs).plugin = some q) (k : Int) :
    QMap.find toReturn k = if k ∈ uIDs then QMap.find q.namesCache k else none := by
  by_cases h : (uIDs.filter (fun id => !QMap.contains p.namesCache id)).length > 0
  · rw [getCachedNamesForIDs_of_uncached exec p uIDs h] at hret hq
    simp only at hret hq
    rw [hq] at hret
    simp only [Option.map_some', Option.some.injEq] at hret
    rw [← hret]
    exact find_collectCached _ _ _
  · rw [getCachedNamesForIDs_of_cached exec p uIDs h] at hret hq
    simp only [Option.some.injEq] at hret hq
    rw [← hret, ← hq]
    exact find_collectCached _ _ _

/-- C5 fails on the code: `getCachedNamesForIDs` sets its timer up (`setSingleShot`,
`setInterval`, `timeout()` connected to `quit()`) and never starts it, so the wait
has no timeout. When some id of `uIDs` is not cached and no package arrives, the
call never returns: no map is returned, where the claim has the timeout end the
wait and the cached ids returned. With an empty cache and `uIDs = [1, 2]` the
request is sent, the wait is entered and the call does not return; it returns
`{1: "Alice"}` only because the reply `RESPONSE_NAMES{uids: ["1"], "1": "Alice"}`
arrives, and the same loop with the timer started would return the empty map. -/
theorem getCachedNamesForIDs_never_returns_without_reply (p : ContactsPlugin)
    (uIDs : List Int) :
    waitTimer.active = false ∧
    (p.getCachedNamesForIDs (QEventLoop.exec []) uIDs).toReturn =
      (if (uIDs.filter (fun id => !QMap.contains p.namesCache id)).length > 0 then none
       else some (collectCached p.namesCache uIDs)) ∧
    p.getNamesByUIDs (QEventLoop.exec []) uIDs =
      p.getCachedNamesForIDs (QEventLoop.exec []) uIDs ∧
    ((ContactsPlugin.fresh.getNamesByUIDs (QEventLoop.exec []) [1, 2]).toReturn = none ∧
      (ContactsPlugin.fresh.getNamesByUIDs (QEventLoop.exec []) [1, 2]).waited = true ∧
      (ContactsPlugin.fresh.sendNamesForIDsRequest [1, 2]).2.outbox =
        [{ type := "REQUEST_NAMES_BY_UIDS",
           body := [("uids", Value.strList ["1", "2"])] }]) ∧
    (ContactsPlugin.fresh.getNamesByUIDs (QEventLoop.exec [aliceReply]) [1, 2]).toReturn =
      some [(1, "Alice")] ∧
    (QEventLoop.exec [] waitTimer.start ContactsSignal.cachedNamesAvailable
        (ContactsPlugin.fresh.sendNamesForIDsRequest [1, 2]).2).map
          (fun p1 => collectCached p1.namesCache [1, 2]) = some [] := by
  refine ⟨rfl, ?_, rfl, ⟨by decide, by decide, by decide⟩, by decide, by decide⟩
  by_cases h : (uIDs.filter (fun id => !QMap.contains p.namesCache id)).length > 0
  · rw [getCachedNamesForIDs_of_uncached _ p uIDs h]
    simp [h, QEventLoop.exec, waitTimer, QTimer.create, QTimer.setSingleShot,
      QTimer.setInterval]
  · rw [getCachedNamesForIDs_of_cached _ p uIDs h]
    simp [h]

/-- C6: `ContactsPlugin::getCachedNamesForIDs` and `getCachedPhonesForIDs`. The nested
event loop is entered exactly when some id of `uIDs` is absent from the cache at
call time, and then it is entered in the state of the call with one package added
to those sent: type `REQUEST_NAMES_BY_UIDS` (resp. `REQUEST_PHONES_BY_UIDS`), body
`uids` = the decimal strings of the absent ids in the order of `uIDs`, none of them
cached. When every id is cached there is no wait and the call returns with the
plugin as it was, nothing sent. With an event loop that sends nothing itself, the
packages sent when the call returns are those sent before, followed by that one
request when there was a wait. -/
theorem getCachedForIDs_requests_exactly_uncached
    (exec : QTimer → ContactsSignal → ContactsPlugin → Option ContactsPlugin)
    (p : ContactsPlugin) (uIDs : List Int)
    (hexec : ∀ t sig s q, exec t sig s = some q → q.outbox = s.outbox) :
    (((p.getCachedNamesForIDs exec uIDs).waited = true ↔
        ∃ id ∈ uIDs, QMap.contains p.namesCache id = false) ∧
      ((∀ id ∈ uIDs, QMap.contains p.namesCache id = true) →
        (p.getCachedNamesForIDs exec uIDs).waited = false ∧
        (p.getCachedNamesForIDs exec uIDs).plugin = some p) ∧
      ((∃ id ∈ uIDs, QMap.contains p.namesCache id = false) →
        (p.getCachedNamesForIDs exec uIDs).plugin =
          exec waitTimer ContactsSignal.cachedNamesAvailable
            { p with outbox := p.outbox ++
              [{ type := PACKAGE_TYPE_CONTACTS_REQUEST_NAMES_BY_UIDS,
                 body := [("uids", Value.strList
                   ((uIDs.filter (fun id => !QMap.contains p.namesCache id)).map
                     QString.number))] }] } ∧
        ∀ q, (p.getCachedNamesForIDs exec uIDs).plugin = some q →
          q.outbox = p.outbox ++
            [{ type := PACKAGE_TYPE_CONTACTS_REQUEST_NAMES_BY_UIDS,
               body := [("uids", Value.strList
                 ((uIDs.filter (fun id => !QMap.contains p.namesCache id)).map
                   QString.number))] }]) ∧
      (∀ id ∈ uIDs.filter (fun id => !QMap.contains p.namesCache id),
        id ∈ uIDs ∧ QMap.contains p.namesCache id = false)) ∧
    (((p.getCachedPhonesForIDs exec uIDs).waited = true ↔
        ∃ id ∈ uIDs, QMap.contains p.phonesCache id = false) ∧
      ((∀ id ∈ uIDs, QMap.contains p.phonesCache id = true) →
        (p.getCachedPhonesForIDs exec uIDs).waited = false ∧
        (p.getCachedPhonesForIDs exec uIDs).plugin = some p) ∧
      ((∃ id ∈ uIDs, QMap.contains p.phonesCache id = false) →
        (p.getCachedPhonesForIDs exec uIDs).plugin =
          exec waitTimer ContactsSignal.cachedPhonesAvailable
            { p with outbox := p.outbox ++
              [{ type := PACKAGE_TYPE_CONTACTS_REQUEST_PHONES_BY_UIDS,
                 body := [("uids", Value.strList
                   ((uIDs.filter (fun id => !QMap.contains p.phonesCache id)).map
                     QString.number))] }] } ∧
        ∀ q, (p.getCachedPhonesForIDs exec uIDs).plugin = some q →
          q.outbox = p.outbox ++
            [{ type := PACKAGE_TYPE_CONTACTS_REQUEST_PHONES_BY_UIDS,
               body := [("uids", Value.strList
                 ((uIDs.filter (fun id => !QMap.contains p.phonesCache id)).map
                   QString.number))] }]) ∧
      (∀ id ∈ uIDs.filter (fun id => !QMap.contains p.phonesCache id),
        id ∈ uIDs ∧ QMap.contains p.phonesCache id = false)) := by
  refine ⟨⟨?_, ?_, ?_, ?_⟩, ⟨?_, ?_, ?_, ?_⟩⟩
  · rw [← filter_uncached_eq_nil]
    by_cases h : (uIDs.filter (fun id => !QMap.contains p.namesCache id)).length > 0
    · rw [getCachedNamesForIDs_of_uncached exec p uIDs h]
      simp [h]
    · rw [getCachedNamesForIDs_of_cached exec p uIDs h]
      simp [h]
  · intro hall
    have h : ¬ (uIDs.filter (fun id => !QMap.contains p.namesCache id)).length > 0 := by
      rw [filter_uncached_eq_nil]
      rintro ⟨id, hid, hc⟩
      rw [hall id hid] at hc
      exact Bool.noConfusion hc
    rw [getCachedNamesForIDs_of_cached exec p uIDs h]
    exact ⟨rfl, rfl⟩
  · intro hex
    have h : (uIDs.filter (fun id => !QMap.contains p.namesCache id)).length > 0 :=
      (filter_uncached_eq_nil _ _).mpr hex
    rw [getCachedNamesForIDs_of_uncached exec p uIDs h]
    refine ⟨rfl, ?_⟩
    intro q hq
    rw [hexec _ _ _ q hq]
    rfl
  · intro id hid
    simpa [List.mem_filter] using hid
  · rw [← filter_uncached_eq_nil]
    by_cases h : (uIDs.filter (fun id => !QMap.contains p.phonesCache id)).length > 0
    · rw [getCachedPhonesForIDs_of_uncached exec p uIDs h]
      simp [h]
    · rw [getCachedPhonesForIDs_of_cached exec p uIDs h]
      simp [h]
  · intro hall
    have h : ¬ (uIDs.filter (fun id => !QMap.contains p.phonesCache id)).length > 0 := by
      rw [filter_uncached_eq_nil]
      rintro ⟨id, hid, hc⟩
      rw [hall id hid] at hc
      exact Bool.noConfusion hc
    rw [getCachedPhonesForIDs_of_cached exec p uIDs h]
    exact ⟨rfl, rfl⟩
  · intro hex
    have h : (uIDs.filter (fun id => !QMap.contains p.phonesCache id)).length > 0 :=
      (filter_uncached_eq_nil _ _).mpr hex
    rw [getCachedPhonesForIDs_of_uncached exec p uIDs h]
    refine ⟨rfl, ?_⟩
    intro q hq
    rw [hexec _ _ _ q hq]
    rfl
  · intro id hid
    simpa [List.mem_filter] using hid

/-- A plugin that knows uid 1 only, asked for `[1, 2, 3]` with an event loop that
returns at once, satisfies the hypotheses of C6: one request listing `["2", "3"]`
has been sent when the call returns. -/
theorem getCachedForIDs_requests_exactly_uncached_witness :
    (∀ (t : QTimer) (sig : ContactsSignal) (s q : ContactsPlugin),
      returnAtOnce t sig s = some q → q.outbox = s.outbox) ∧
    (∃ i ∈ [1, 2, 3], QMap.contains warmPlugin.namesCache i = false) ∧
    (warmPlugin.getCachedNamesForIDs returnAtOnce [1, 2, 3]).plugin =
      some { warmPlugin with outbox :=
        [{ type := "REQUEST_NAMES_BY_UIDS",
           body := [("uids", Value.strList ["2", "3"])] }] } ∧
    ({ warmPlugin with outbox :=
        [{ type := "REQUEST_NAMES_BY_UIDS",
           body := [("uids", Value.strList ["2", "3"])] }] } : ContactsPlugin).outbox =
      warmPlugin.outbox ++
        [{ type := PACKAGE_TYPE_CONTACTS_REQUEST_NAMES_BY_UIDS,
           body := [("uids", Value.strList
             (([1, 2, 3].filter (fun id => !QMap.contains warmPlugin.namesCache id)).map
               QString.number))] }] :=
  ⟨fun _ _ _ _ h => by cases h; rfl, ⟨2, by decide, by decide⟩, by decide,
    ((getCachedForIDs_requests_exactly_uncached returnAtOnce warmPlugin [1, 2, 3]
      (fun _ _ _ _ h => by cases h; rfl)).1.2.2.1 ⟨2, by decide, by decide⟩).2 _
        (by decide)⟩

/-! ## Response handlers of the contacts plugin -/

/-- C8: `handleResponseUIDs`, `handleResponseNames` and `handleResponsePhones`. On a
package without the `uids` key each returns `false` and leaves the plugin as it
was: the three caches unchanged, no signal emitted. On a package with the key each
returns `true` and emits its own signal once, as the last thing it does. -/
theorem handleResponse_requires_uids (p : ContactsPlugin) (np : NetworkPackage) :
    (np.has "uids" = false →
      p.handleResponseUIDs np = (false, p) ∧
      p.handleResponseNames np = (false, p) ∧
      p.handleResponsePhones np = (false, p)) ∧
    (np.has "uids" = true →
      ((p.handleResponseUIDs np).1 = true ∧
        (p.handleResponseUIDs np).2.emitted =
          p.emitted ++ [ContactsSignal.cachedUIDsAvailable]) ∧
      ((p.handleResponseNames np).1 = true ∧
        (p.handleResponseNames np).2.emitted =
          p.emitted ++ [ContactsSignal.cachedNamesAvailable]) ∧
      ((p.handleResponsePhones np).1 = true ∧
        (p.handleResponsePhones np).2.emitted =
          p.emitted ++ [ContactsSignal.cachedPhonesAvailable])) := by
  constructor
  · intro h
    simp [ContactsPlugin.handleResponseUIDs, ContactsPlugin.handleResponseNames,
      ContactsPlugin.handleResponsePhones, h]
  · intro h
    simp [ContactsPlugin.handleResponseUIDs, ContactsPlugin.handleResponseNames,
      ContactsPlugin.handleResponsePhones, ContactsPlugin.emit, h]

/-- A package without `uids` and the reply `aliceReply`, which has it, satisfy the
hypotheses of C8. -/
theorem handleResponse_requires_uids_witness :
    keylessResponse.has "uids" = false ∧
    warmPlugin.handleResponseNames keylessResponse = (false, warmPlugin) ∧
    aliceReply.has "uids" = true ∧
    (warmPlugin.handleResponsePhones aliceReply).1 = true :=
  ⟨by decide,
    ((handleResponse_requires_uids warmPlugin keylessResponse).1 (by decide)).2.1,
    by decide,
    ((handleResponse_requires_uids warmPlugin aliceReply).2 (by decide)).2.2.1⟩

/-- C9 fails on the code: `receivePackage` on a `RESPONSE` package reads `contact[2]`
and `contact[1]` of every non-empty entry without looking at its length. With the
entry `"0": ["Alice"]`, and with a well-formed entry 0 followed by
`"1": ["Bob", "home"]`, the read of `contact[2]` is out of range whatever the plugin
state and however many iterations are allowed: the entry is not skipped and the
receive path does not return. -/
theorem receivePackage_short_contact_out_of_range (p : ContactsPlugin) (fuel : Nat) :
    p.receivePackage (fuel + 1) shortContactResponse =
      Except.error Fault.indexOutOfRange ∧
    p.receivePackage (fuel + 2) pairContactResponse =
      Except.error Fault.indexOutOfRange := by
  have ht1 : shortContactResponse.type = PACKAGE_TYPE_CONTACTS_RESPONSE := rfl
  have ht2 : pairContactResponse.type = PACKAGE_TYPE_CONTACTS_RESPONSE := rfl
  have hs : shortContactResponse.getQStringList (QString.number 0) = ["Alice"] := by
    decide
  have h0 : pairContactResponse.getQStringList (QString.number 0) =
      ["Alice", "mobile", "555"] := by decide
  have h1 : pairContactResponse.getQStringList (QString.number 1) = ["Bob", "home"] := by
    decide
  constructor
  · simp [ContactsPlugin.receivePackage, ContactsPlugin.receivePackageLoop, ht1, hs]
  · simp [ContactsPlugin.receivePackage, ContactsPlugin.receivePackageLoop, ht2, h0, h1]

theorem find_foldl_storeName_of_untouched (np : NetworkPackage) (uids : List String)
    (k : Int) :
    ∀ cache : List (Int × String),
      (∀ u ∈ uids, np.has u = true → QString.toLongLong u ≠ k) →
      QMap.find (uids.foldl (storeName np) cache) k = QMap.find cache k := by
  induction uids with
  | nil => intro cache _; rfl
  | cons a rest ih =>
    intro cache h
    rw [List.foldl_cons, ih _ (fun u hu => h u (List.mem_cons_of_mem _ hu))]
    by_cases ha : np.has a = true
    · have hk : k ≠ QString.toLongLong a := Ne.symm (h a (List.mem_cons_self _ _) ha)
      simp [storeName, ha, QMap.find_insert_ne _ _ _ _ hk]
    · simp [storeName, ha]

theorem find_foldl_storeName_of_listed (np : NetworkPackage) (uids : List String) :
    ∀ (cache : List (Int × String)) (u : String),
      (uids.map QString.toLongLong).Nodup → u ∈ uids → np.has u = true →
      QMap.find (uids.foldl (storeName np) cache) (QString.toLongLong u) =
        some (np.getQString u) := by
  induction uids with
  | nil => intro cache u _ hu; simp at hu
  | cons a rest ih =>
    intro cache u hnd hu hhas
    rw [List.map_cons, List.nodup_cons] at hnd
    rw [List.foldl_cons]
    rcases List.mem_cons.mp hu with rfl | hu
    · rw [find_foldl_storeName_of_untouched]
      · simp [storeName, hhas, QMap.find_insert_self]
      · intro v hv _ heq
        exact hnd.1 (heq ▸ List.mem_map_of_mem _ hv)
    · exact ih _ u hnd.2 hu hhas

/-- C7, as stated, fails: distinct decimal strings need not be distinct uids. The
package `RESPONSE_NAMES{uids: ["1", "01", "2"], "1": "Alice", "01": "Bob"}` lists
three distinct decimal strings of which exactly one, "2", has no key of its own,
and carries "Alice" for "1"; but "01" is read as the uid 1 too, and the names cache
ends with "Bob", not "Alice", under the uid 1. -/
theorem handleResponseNames_aliased_uid_overwritten :
    aliasedNamesReply.has "uids" = true ∧
    aliasedNamesReply.getQStringList "uids" = ["1", "01", "2"] ∧
    ["1", "01", "2"].Nodup ∧
    aliasedNamesReply.has "1" = true ∧ aliasedNamesReply.has "01" = true ∧
    aliasedNamesReply.has "2" = false ∧
    aliasedNamesReply.getQString "1" = "Alice" ∧
    QString.toLongLong "1" = 1 ∧ QString.toLongLong "01" = 1 ∧
    QMap.find (ContactsPlugin.fresh.handleResponseNames aliasedNamesReply).2.namesCache
      (QString.toLongLong "1") = some "Bob" ∧
    QMap.find (ContactsPlugin.fresh.handleResponseNames aliasedNamesReply).2.namesCache
      (QString.toLongLong "1") ≠ some (aliasedNamesReply.getQString "1") := by
  decide

/-- C7, amended: `ContactsPlugin::handleResponseNames` on a `RESPONSE_NAMES` package
whose `uids` lists strings that `toLongLong` reads as pairwise distinct uids, of
which exactly one, `bad`, has no body key of its own. The call returns `true` and
emits `cachedNamesAvailable`; the names cache afterwards holds, under each other
listed uid (as an integer), the name the package carries for it, while the entry
of `bad` and the entry of every uid that is not listed are those of the cache
before. This does not depend on where `bad` stands in the list. -/
theorem handleResponseNames_skips_only_malformed (p : ContactsPlugin)
    (np : NetworkPackage) (uids : List String) (bad : String)
    (hkey : np.has "uids" = true) (hlist : np.getQStringList "uids" = uids)
    (hdistinct : (uids.map QString.toLongLong).Nodup)
    (hbad : bad ∈ uids) (hmissing : np.has bad = false)
    (hothers : ∀ u ∈ uids, u ≠ bad → np.has u = true) :
    (p.handleResponseNames np).1 = true ∧
    (p.handleResponseNames np).2.emitted =
      p.emitted ++ [ContactsSignal.cachedNamesAvailable] ∧
    (∀ u ∈ uids, u ≠ bad →
      QMap.find (p.handleResponseNames np).2.namesCache (QString.toLongLong u) =
        some (np.getQString u) ∧
      ∀ name, QMap.find np.body u = some (Value.str name) →
        QMap.find (p.handleResponseNames np).2.namesCache (QString.toLongLong u) =
          some name) ∧
    QMap.find (p.handleResponseNames np).2.namesCache (QString.toLongLong bad) =
      QMap.find p.namesCache (QString.toLongLong bad) ∧
    (∀ k, (∀ u ∈ uids, QString.toLongLong u ≠ k) →
      QMap.find (p.handleResponseNames np).2.namesCache k = QMap.find p.namesCache k) := by
  have hnd := hdistinct
  have hres : p.handleResponseNames np =
      (true, ({ p with namesCache := uids.foldl (storeName np) p.namesCache }).emit
        ContactsSignal.cachedNamesAvailable) := by
    simp [ContactsPlugin.handleResponseNames, hkey, hlist]
  rw [hres]
  refine ⟨rfl, rfl, ?_, ?_, ?_⟩
  · intro u hu hne
    have hstored : QMap.find (uids.foldl (storeName np) p.namesCache)
        (QString.toLongLong u) = some (np.getQString u) :=
      find_foldl_storeName_of_listed np uids p.namesCache u hnd hu (hothers u hu hne)
    refine ⟨hstored, ?_⟩
    intro name hname
    have hget : np.getQString u = name := by simp [NetworkPackage.getQString, hname]
    rw [← hget]
    exact hstored
  · refine find_foldl_storeName_of_untouched np uids _ p.namesCache ?_
    intro u hu hhas heq
    have hub : u = bad := List.inj_on_of_nodup_map hnd hu hbad heq
    rw [hub, hmissing] at hhas
    exact Bool.noConfusion hhas
  · intro k hk
    exact find_foldl_storeName_of_untouched np uids k p.namesCache
      (fun u hu _ => hk u hu)

/-- The package listing "1", "2", "3" without a key for "2" satisfies the hypotheses
of the amended C7; "Carol", listed after the malformed uid, is stored. -/
theorem handleResponseNames_skips_only_malformed_witness :
    gappedNamesReply.has "uids" = true ∧ gappedNamesReply.has "2" = false ∧
    ((gappedNamesReply.getQStringList "uids").map QString.toLongLong).Nodup ∧
    QMap.find (ContactsPlugin.fresh.handleResponseNames gappedNamesReply).2.namesCache
      (QString.toLongLong "3") = some (gappedNamesReply.getQString "3") :=
  ⟨by decide, by decide, by decide,
    ((handleResponseNames_skips_only_malformed ContactsPlugin.fresh gappedNamesReply
      ["1", "2", "3"] "2" (by decide) (by decide) (by decide)
      (by decide) (by decide) (by decide)).2.2.1 "3" (by decide) (by decide)).1⟩

theorem find_foldl_storePhone_of_ne (key k : Int) (hk : k ≠ key)
    (entries : List (List String)) :
    ∀ cache : List (Int × List PhoneEntry),
      QMap.find (entries.foldl (storePhone key) cache) k = QMap.find cache k := by
  induction entries with
  | nil => intro cache; rfl
  | cons e rest ih =>
    intro cache
    rw [List.foldl_cons, ih]
    by_cases hl : e.length < 3
    · simp [storePhone, hl]
    · simp [storePhone, hl, QMap.find_insert_ne _ _ _ _ hk]

theorem value_foldl_storePhone (key : Int) (entries : List (List String)) :
    ∀ cache : List (Int × List PhoneEntry),
      QMap.value (entries.foldl (storePhone key) cache) key [] =
        QMap.value cache key [] ++
          (entries.filter (fun e => decide (3 ≤ e.length))).map
            (fun e => { number := e.getD 0 "", type := QString.toInt (e.getD 1 ""),
                        label := e.getD 2 "" }) := by
  induction entries with
  | nil => intro cache; simp
  | cons e rest ih =>
    intro cache
    rw [List.foldl_cons, ih]
    by_cases hl : e.length < 3
    · have hl' : ¬ 3 ≤ e.length := by omega
      simp [storePhone, hl, hl']
    · have hl' : 3 ≤ e.length := by omega
      simp [storePhone, hl, hl', QMap.value, QMap.find_insert_self]

theorem find_foldl_storePhones_of_untouched (np : NetworkPackage) (uids : List String)
    (k : Int) :
    ∀ cache : List (Int × List PhoneEntry),
      (∀ u ∈ uids, np.has u = true → QString.toLongLong u ≠ k) →
      QMap.find (uids.foldl (storePhones np) cache) k = QMap.find cache k := by
  induction uids with
  | nil => intro cache _; rfl
  | cons a rest ih =>
    intro cache h
    rw [List.foldl_cons, ih _ (fun u hu => h u (List.mem_cons_of_mem _ hu))]
    by_cases ha : np.has a = true
    · have hk : k ≠ QString.toLongLong a := Ne.symm (h a (List.mem_cons_self _ _) ha)
      simp [storePhones, ha, find_foldl_storePhone_of_ne _ _ hk]
    · simp [storePhones, ha]

theorem value_foldl_storePhones_of_listed (np : NetworkPackage) (uids : List String) :
    ∀ (cache : List (Int × List PhoneEntry)) (u : String),
      (uids.map QString.toLongLong).Nodup → u ∈ uids → np.has u = true →
      QMap.value (uids.foldl (storePhones np) cache) (QString.toLongLong u) [] =
        QMap.value cache (QString.toLongLong u) [] ++ phoneEntriesOf np u := by
  induction uids with
  | nil => intro cache u _ hu; simp at hu
  | cons a rest ih =>
    intro cache u hnd hu hhas
    rw [List.map_cons, List.nodup_cons] at hnd
    rw [List.foldl_cons]
    rcases List.mem_cons.mp hu with rfl | hu
    · have hrest : QMap.find (rest.foldl (storePhones np) (storePhones np cache u))
          (QString.toLongLong u) =
          QMap.find (storePhones np cache u) (QString.toLongLong u) := by
        apply find_foldl_storePhones_of_untouched
        intro v hv _ heq
        exact hnd.1 (heq ▸ List.mem_map_of_mem _ hv)
      have hstep : QMap.value (storePhones np cache u) (QString.toLongLong u) [] =
          QMap.value cache (QString.toLongLong u) [] ++ phoneEntriesOf np u := by
        simp only [storePhones, hhas, Bool.not_true, Bool.false_eq_true, if_false]
        exact value_foldl_storePhone _ _ _
      rw [← hstep]
      simp only [QMap.value, hrest]
    · have hne : QString.toLongLong u ≠ QString.toLongLong a := by
        intro heq
        exact hnd.1 (heq ▸ List.mem_map_of_mem _ hu)
      have hstep : QMap.find (storePhones np cache a) (QString.toLongLong u) =
          QMap.find cache (QString.toLongLong u) := by
        by_cases ha : np.has a = true
        · simp [storePhones, ha, find_foldl_storePhone_of_ne _ _ hne]
        · simp [storePhones, ha]
      rw [ih _ u hnd.2 hu hhas]
      simp only [QMap.value, hstep]

/-- C10, as stated, fails: distinct decimal strings need not be distinct uids. The
package `RESPONSE_PHONES{uids: ["1", "01"], "1": [["555", "2", "mobile"]],
"01": [["777", "1", "home"]]}` lists two distinct decimal strings, each with its own
key; both are read as the uid 1, so on an empty cache the list of the uid 1 ends
with the entry of "1" followed by the entry of "01", not with the entries of "1"
alone. -/
theorem handleResponsePhones_aliased_uid_accumulates :
    aliasedPhonesReply.has "uids" = true ∧
    aliasedPhonesReply.getQStringList "uids" = ["1", "01"] ∧
    ["1", "01"].Nodup ∧
    aliasedPhonesReply.has "1" = true ∧ aliasedPhonesReply.has "01" = true ∧
    QString.toLongLong "1" = 1 ∧ QString.toLongLong "01" = 1 ∧
    QMap.value (ContactsPlugin.fresh.handleResponsePhones aliasedPhonesReply).2.phonesCache
        (QString.toLongLong "1") [] =
      [{ number := "555", type := 2, label := "mobile" },
       { number := "777", type := 1, label := "home" }] ∧
    QMap.value ContactsPlugin.fresh.phonesCache (QString.toLongLong "1") [] ++
        phoneEntriesOf aliasedPhonesReply "1" =
      [{ number := "555", type := 2, label := "mobile" }] ∧
    QMap.value (ContactsPlugin.fresh.handleResponsePhones aliasedPhonesReply).2.phonesCache
        (QString.toLongLong "1") [] ≠
      QMap.value ContactsPlugin.fresh.phonesCache (QString.toLongLong "1") [] ++
        phoneEntriesOf aliasedPhonesReply "1" := by
  decide

/-- C10, amended: `ContactsPlugin::handleResponsePhones` on a `RESPONSE_PHONES` package
whose `uids` lists strings that `toLongLong` reads as pairwise distinct uids. The
call returns `true` and emits
`cachedPhonesAvailable`. For each listed uid that has its own body key, the list the
phones cache holds for it afterwards (empty when there is none) is the list it
held before followed by `PhoneEntry(e[0], toInt(e[1]), e[2])` for the entries `e` of
the package that have at least three strings, in package order, the shorter ones
being skipped. The entry of a listed uid without its key, and of every uid that is
not listed, is the one of the cache before. Handling the same package a second
time appends the same entries once more. -/
theorem handleResponsePhones_appends_entries (p : ContactsPlugin) (np : NetworkPackage)
    (uids : List String) (hkey : np.has "uids" = true)
    (hlist : np.getQStringList "uids" = uids)
    (hdistinct : (uids.map QString.toLongLong).Nodup) :
    (p.handleResponsePhones np).1 = true ∧
    (p.handleResponsePhones np).2.emitted =
      p.emitted ++ [ContactsSignal.cachedPhonesAvailable] ∧
    (∀ u ∈ uids, np.has u = true →
      QMap.value (p.handleResponsePhones np).2.phonesCache (QString.toLongLong u) [] =
        QMap.value p.phonesCache (QString.toLongLong u) [] ++
          ((np.getQVariantList u).filter (fun e => decide (3 ≤ e.length))).map
            (fun e => { number := e.getD 0 "", type := QString.toInt (e.getD 1 ""),
                        label := e.getD 2 "" })) ∧
    (∀ u ∈ uids, np.has u = false →
      QMap.find (p.handleResponsePhones np).2.phonesCache (QString.toLongLong u) =
        QMap.find p.phonesCache (QString.toLongLong u)) ∧
    (∀ k, (∀ u ∈ uids, QString.toLongLong u ≠ k) →
      QMap.find (p.handleResponsePhones np).2.phonesCache k = QMap.find p.phonesCache k) ∧
    (∀ u ∈ uids, np.has u = true →
      QMap.value ((p.handleResponsePhones np).2.handleResponsePhones np).2.phonesCache
          (QString.toLongLong u) [] =
        QMap.value p.phonesCache (QString.toLongLong u) [] ++
          phoneEntriesOf np u ++ phoneEntriesOf np u) := by
  have hnd := hdistinct
  have hres : ∀ q : ContactsPlugin, q.handleResponsePhones np =
      (true, ({ q with phonesCache := uids.foldl (storePhones np) q.phonesCache }).emit
        ContactsSignal.cachedPhonesAvailable) := by
    intro q
    simp [ContactsPlugin.handleResponsePhones, hkey, hlist]
  rw [hres ((p.handleResponsePhones np).2), hres p]
  refine ⟨rfl, rfl, ?_, ?_, ?_, ?_⟩
  · intro u hu hhas
    exact value_foldl_storePhones_of_listed np uids p.phonesCache u hnd hu hhas
  · intro u hu hhas
    refine find_foldl_storePhones_of_untouched np uids _ p.phonesCache ?_
    intro v hv hvhas heq
    have hvu : v = u := List.inj_on_of_nodup_map hnd hv hu heq
    rw [hvu, hhas] at hvhas
    exact Bool.noConfusion hvhas
  · intro k hk
    exact find_foldl_storePhones_of_untouched np uids k p.phonesCache
      (fun u hu _ => hk u hu)
  · intro u hu hhas
    have h2 := value_foldl_storePhones_of_listed np uids
      (uids.foldl (storePhones np) p.phonesCache) u hnd hu hhas
    have h1 := value_foldl_storePhones_of_listed np uids p.phonesCache u hnd hu hhas
    rw [h1] at h2
    exact h2

/-- The package `phonesReply` satisfies the hypotheses of the amended C10; on a cache
that already holds one entry for the uid 1, the two complete entries are appended
to it. -/
theorem handleResponsePhones_appends_entries_witness :
    phonesReply.has "uids" = true ∧ phonesReply.has "1" = true ∧
    ((phonesReply.getQStringList "uids").map QString.toLongLong).Nodup ∧
    QMap.value (warmPlugin.handleResponsePhones phonesReply).2.phonesCache
        (QString.toLongLong "1") [] =
      QMap.value warmPlugin.phonesCache (QString.toLongLong "1") [] ++
        ((phonesReply.getQVariantList "1").filter (fun e => decide (3 ≤ e.length))).map
          (fun e => { number := e.getD 0 "", type := QString.toInt (e.getD 1 ""),
                      label := e.getD 2 "" }) :=
  ⟨by decide, by decide, by decide,
    (handleResponsePhones_appends_entries warmPlugin phonesReply ["1"] (by decide)
      (by decide) (by decide)).2.2.1 "1" (by decide) (by decide)⟩

/-! ## The bulk `RESPONSE` loop of `ContactsPlugin::receivePackage` -/

theorem QString.number_injective (a b : Int) (h : QString.number a = QString.number b) :
    a = b := by
  have ha := parseInteger_number a
  rw [h, parseInteger_number b] at ha
  exact (Option.some.inj ha).symm

theorem key_mem_of_getQStringList_ne_nil (np : NetworkPackage) (key : String)
    (h : np.getQStringList key ≠ []) : key ∈ QMap.keys np.body := by
  unfold NetworkPackage.getQStringList at h
  cases hf : QMap.find np.body key with
  | none => simp [hf] at h
  | some v =>
    exact List.mem_map_of_mem Prod.fst (QMap.mem_of_find _ _ _ hf)

theorem exists_empty_entry (np : NetworkPackage) :
    ∃ i : Nat, i ≤ np.body.length ∧ np.getQStringList (QString.number (i : Int)) = [] := by
  by_contra hcon
  push_neg at hcon
  have hnd : ((List.range (np.body.length + 1)).map
      (fun i : Nat => QString.number (i : Int))).Nodup := by
    refine List.Nodup.map ?_ (List.nodup_range _)
    intro a b hab
    exact Int.ofNat.inj (QString.number_injective _ _ hab)
  have hsub : (List.range (np.body.length + 1)).map
      (fun i : Nat => QString.number (i : Int)) ⊆ QMap.keys np.body := by
    intro key hkey
    obtain ⟨i, hi, rfl⟩ := List.mem_map.mp hkey
    exact key_mem_of_getQStringList_ne_nil np _
      (hcon i (Nat.lt_succ_iff.mp (List.mem_range.mp hi)))
  have hle := (hnd.subperm hsub).length_le
  simp [QMap.keys] at hle

theorem exists_first_empty_entry (np : NetworkPackage) :
    ∃ k : Nat, k ≤ np.body.length ∧ np.getQStringList (QString.number (k : Int)) = [] ∧
      ∀ i : Nat, i < k → np.getQStringList (QString.number (i : Int)) ≠ [] := by
  have hex : ∃ i : Nat, np.getQStringList (QString.number (i : Int)) = [] := by
    obtain ⟨i, _, hi⟩ := exists_empty_entry np
    exact ⟨i, hi⟩
  refine ⟨Nat.find hex, ?_, Nat.find_spec hex, fun i hi => Nat.find_min hex hi⟩
  obtain ⟨i, hile, hi⟩ := exists_empty_entry np
  exact le_trans (Nat.find_min' hex hi) hile

theorem receivePackageLoop_step (np : NetworkPackage) (fuel index : Nat) (p : ContactsPlugin)
    (hlen : 3 ≤ (np.getQStringList (QString.number (index : Int))).length) :
    ContactsPlugin.receivePackageLoop np (fuel + 1) index p =
      ContactsPlugin.receivePackageLoop np fuel (index + 1)
        (storeContact p (np.getQStringList (QString.number (index : Int)))) := by
  rw [ContactsPlugin.receivePackageLoop]
  cases hc : np.getQStringList (QString.number (index : Int)) with
  | nil => simp [hc] at hlen
  | cons a t =>
    cases t with
    | nil => simp [hc] at hlen
    | cons b t =>
      cases t with
      | nil => simp [hc] at hlen
      | cons c t => simp [storeContact, contactEntryOf]

theorem receivePackageLoop_stop (np : NetworkPackage) (fuel index : Nat) (p : ContactsPlugin)
    (hnil : np.getQStringList (QString.number (index : Int)) = []) :
    ContactsPlugin.receivePackageLoop np (fuel + 1) index p = Except.ok p := by
  rw [ContactsPlugin.receivePackageLoop]
  simp [hnil]

theorem receivePackageLoop_runs (np : NetworkPackage) (k : Nat)
    (hnil : np.getQStringList (QString.number (k : Int)) = [])
    (hlen : ∀ i : Nat, i < k → 3 ≤ (np.getQStringList (QString.number (i : Int))).length) :
    ∀ (n index fuel : Nat) (p : ContactsPlugin), index + n = k → n < fuel →
      ContactsPlugin.receivePackageLoop np fuel index p =
        Except.ok (((List.range' index n).map
          (fun i : Nat => np.getQStringList (QString.number (i : Int)))).foldl storeContact p) := by
  intro n
  induction n with
  | zero =>
    intro index fuel p hk hf
    obtain ⟨fuel, rfl⟩ : ∃ m, fuel = m + 1 := ⟨fuel - 1, by omega⟩
    have hik : index = k := by omega
    subst hik
    simpa using receivePackageLoop_stop np fuel index p hnil
  | succ n ih =>
    intro index fuel p hk hf
    obtain ⟨fuel, rfl⟩ : ∃ m, fuel = m + 1 := ⟨fuel - 1, by omega⟩
    rw [receivePackageLoop_step np fuel index p (hlen index (by omega)),
      ih (index + 1) fuel _ (by omega) (by omega)]
    simp [List.range'_succ]

theorem QSet.mem_insert_iff_or {α : Type} [DecidableEq α] (s : List α) (x y : α) :
    y ∈ QSet.insert s x ↔ y ∈ s ∨ y = x := by
  unfold QSet.insert
  by_cases h : x ∈ s
  · simp only [h, if_true]
    constructor
    · exact Or.inl
    · rintro (hy | hy)
      · exact hy
      · rw [hy]; exact h
  · simp [h]

theorem mem_byName_storeContact (q : ContactsPlugin) (c : List String) (n : String)
    (x : ContactsEntry) :
    x ∈ QMap.value (storeContact q c).cachedContactsByName n [] ↔
      x ∈ QMap.value q.cachedContactsByName n [] ∨
        (c.getD 0 "" = n ∧ x = contactEntryOf c) := by
  by_cases hn : c.getD 0 "" = n
  · subst hn
    simp [storeContact, QMap.value, QMap.find_insert_self, QSet.mem_insert_iff_or]
  · have hne : n ≠ c.getD 0 "" := fun h => hn h.symm
    simp only [storeContact, QMap.value]
    rw [QMap.find_insert_ne _ _ _ _ hne]
    exact ⟨Or.inl, fun h => h.elim id (fun h' => absurd h'.1 hn)⟩

theorem mem_byNumber_storeContact (q : ContactsPlugin) (c : List String) (n : String)
    (x : ContactsEntry) :
    x ∈ QMap.value (storeContact q c).cachedContactsByNumber n [] ↔
      x ∈ QMap.value q.cachedContactsByNumber n [] ∨
        (c.getD 2 "" = n ∧ x = contactEntryOf c) := by
  by_cases hn : c.getD 2 "" = n
  · subst hn
    simp [storeContact, QMap.value, QMap.find_insert_self, QSet.mem_insert_iff_or]
  · have hne : n ≠ c.getD 2 "" := fun h => hn h.symm
    simp only [storeContact, QMap.value]
    rw [QMap.find_insert_ne _ _ _ _ hne]
    exact ⟨Or.inl, fun h => h.elim id (fun h' => absurd h'.1 hn)⟩

theorem mem_byName_foldl_storeContact (cs : List (List String)) (n : String)
    (x : ContactsEntry) :
    ∀ q : ContactsPlugin,
      x ∈ QMap.value (cs.foldl storeContact q).cachedContactsByName n [] ↔
        x ∈ QMap.value q.cachedContactsByName n [] ∨
          ∃ c ∈ cs, c.getD 0 "" = n ∧ x = contactEntryOf c := by
  induction cs with
  | nil => intro q; simp
  | cons c rest ih =>
    intro q
    rw [List.foldl_cons, ih, mem_byName_storeContact]
    simp only [List.mem_cons, exists_eq_or_imp]
    tauto

theorem mem_byNumber_foldl_storeContact (cs : List (List String)) (n : String)
    (x : ContactsEntry) :
    ∀ q : ContactsPlugin,
      x ∈ QMap.value (cs.foldl storeContact q).cachedContactsByNumber n [] ↔
        x ∈ QMap.value q.cachedContactsByNumber n [] ∨
          ∃ c ∈ cs, c.getD 2 "" = n ∧ x = contactEntryOf c := by
  induction cs with
  | nil => intro q; simp
  | cons c rest ih =>
    intro q
    rw [List.foldl_cons, ih, mem_byNumber_storeContact]
    simp only [List.mem_cons, exists_eq_or_imp]
    tauto

theorem foldl_storeContact_others (cs : List (List String)) :
    ∀ q : ContactsPlugin,
      (cs.foldl storeContact q).uIDCache = q.uIDCache ∧
      (cs.foldl storeContact q).namesCache = q.namesCache ∧
      (cs.foldl storeContact q).phonesCache = q.phonesCache ∧
      (cs.foldl storeContact q).emitted = q.emitted ∧
      (cs.foldl storeContact q).outbox = q.outbox := by
  induction cs with
  | nil => intro q; simp
  | cons c rest ih =>
    intro q
    rw [List.foldl_cons]
    exact ih (storeContact q c)

theorem mem_indexedContacts (np : NetworkPackage) (k : Nat) (c : List String) :
    c ∈ indexedContacts np k ↔
      ∃ i : Nat, i < k ∧ np.getQStringList (QString.number (i : Int)) = c := by
  simp [indexedContacts]

/-- C11: `ContactsPlugin::receivePackage` on a package of type `RESPONSE` whose non-empty
indexed entries all have at least three strings. There is a least index `k` whose
entry is absent or empty, and it is at most the number of entries of the body, so
the `while(true)` loop ends: once more than `k` iterations are allowed, and so with
one more than the body has entries, the handler returns `true`, having emitted
`cachedContactsAvailable` once and touched no other cache. What it stored is what
storing the entries of the indices `0, ..., k - 1` one after the other stores: the
set under a name (resp. a number) holds afterwards what it held before and
`(name, (category, number))` for each entry `[name, category, number]` at an index
below `k` with that name (resp. number), nothing else. In the package with entries
at 0, 1 and 3, the entry at 3 is not stored. -/
theorem receivePackage_response_stores_leading_entries (p : ContactsPlugin)
    (np : NetworkPackage) (htype : np.type = PACKAGE_TYPE_CONTACTS_RESPONSE)
    (hshape : ∀ i : Nat, np.getQStringList (QString.number (i : Int)) ≠ [] →
      3 ≤ (np.getQStringList (QString.number (i : Int))).length) :
    (∃ k : Nat, k ≤ np.body.length ∧
      np.getQStringList (QString.number (k : Int)) = [] ∧
      (∀ i : Nat, i < k → np.getQStringList (QString.number (i : Int)) ≠ []) ∧
      (∀ fuel, k < fuel →
        p.receivePackage fuel np =
          Except.ok (true, ((indexedContacts np k).foldl storeContact p).emit
            ContactsSignal.cachedContactsAvailable)) ∧
      p.receivePackage (np.body.length + 1) np =
        Except.ok (true, ((indexedContacts np k).foldl storeContact p).emit
          ContactsSignal.cachedContactsAvailable) ∧
      (((indexedContacts np k).foldl storeContact p).emit
          ContactsSignal.cachedContactsAvailable).emitted =
        p.emitted ++ [ContactsSignal.cachedContactsAvailable] ∧
      ((indexedContacts np k).foldl storeContact p).uIDCache = p.uIDCache ∧
      ((indexedContacts np k).foldl storeContact p).namesCache = p.namesCache ∧
      ((indexedContacts np k).foldl storeContact p).phonesCache = p.phonesCache ∧
      (∀ (name : String) (x : ContactsEntry),
        x ∈ QMap.value ((indexedContacts np k).foldl storeContact p).cachedContactsByName
            name [] ↔
          x ∈ QMap.value p.cachedContactsByName name [] ∨
            ∃ i : Nat, i < k ∧
              (np.getQStringList (QString.number (i : Int))).getD 0 "" = name ∧
              x = ((np.getQStringList (QString.number (i : Int))).getD 0 "",
                ((np.getQStringList (QString.number (i : Int))).getD 1 "",
                  (np.getQStringList (QString.number (i : Int))).getD 2 ""))) ∧
      (∀ (number : String) (x : ContactsEntry),
        x ∈ QMap.value ((indexedContacts np k).foldl storeContact p).cachedContactsByNumber
            number [] ↔
          x ∈ QMap.value p.cachedContactsByNumber number [] ∨
            ∃ i : Nat, i < k ∧
              (np.getQStringList (QString.number (i : Int))).getD 2 "" = number ∧
              x = ((np.getQStringList (QString.number (i : Int))).getD 0 "",
                ((np.getQStringList (QString.number (i : Int))).getD 1 "",
                  (np.getQStringList (QString.number (i : Int))).getD 2 "")))) ∧
    (ContactsPlugin.fresh.receivePackage 4 gappedContactsResponse =
      Except.ok (true,
        { ContactsPlugin.fresh with
          cachedContactsByName :=
            [("Alice", [("Alice", ("mobile", "555"))]), ("Bob", [("Bob", ("home", "666"))])],
          cachedContactsByNumber :=
            [("555", [("Alice", ("mobile", "555"))]), ("666", [("Bob", ("home", "666"))])],
          emitted := [ContactsSignal.cachedContactsAvailable] })) := by
  refine ⟨?_, rfl⟩
  obtain ⟨k, hk, hnil, hmin⟩ := exists_first_empty_entry np
  have hrun : ∀ fuel, k < fuel →
      p.receivePackage fuel np =
        Except.ok (true, ((indexedContacts np k).foldl storeContact p).emit
          ContactsSignal.cachedContactsAvailable) := by
    intro fuel hf
    have hloop := receivePackageLoop_runs np k hnil (fun i hi => hshape i (hmin i hi))
      k 0 fuel p (by omega) hf
    rw [← List.range_eq_range'] at hloop
    simp only [ContactsPlugin.receivePackage, htype, if_true, hloop]
    rfl
  have hothers := foldl_storeContact_others (indexedContacts np k) p
  refine ⟨k, hk, hnil, hmin, hrun, hrun _ (by omega), ?_, hothers.1, hothers.2.1,
    hothers.2.2.1, ?_, ?_⟩
  · simp [ContactsPlugin.emit, hothers.2.2.2.1]
  · intro name x
    rw [mem_byName_foldl_storeContact]
    constructor
    · rintro (h | ⟨c, hc, hn, hx⟩)
      · exact Or.inl h
      · obtain ⟨i, hi, rfl⟩ := (mem_indexedContacts np k c).mp hc
        exact Or.inr ⟨i, hi, hn, hx⟩
    · rintro (h | ⟨i, hi, hn, hx⟩)
      · exact Or.inl h
      · exact Or.inr ⟨_, (mem_indexedContacts np k _).mpr ⟨i, hi, rfl⟩, hn, hx⟩
  · intro number x
    rw [mem_byNumber_foldl_storeContact]
    constructor
    · rintro (h | ⟨c, hc, hn, hx⟩)
      · exact Or.inl h
      · obtain ⟨i, hi, rfl⟩ := (mem_indexedContacts np k c).mp hc
        exact Or.inr ⟨i, hi, hn, hx⟩
    · rintro (h | ⟨i, hi, hn, hx⟩)
      · exact Or.inl h
      · exact Or.inr ⟨_, (mem_indexedContacts np k _).mpr ⟨i, hi, rfl⟩, hn, hx⟩

theorem gappedContactsResponse_shape (i : Nat)
    (h : gappedContactsResponse.getQStringList (QString.number (i : Int)) ≠ []) :
    3 ≤ (gappedContactsResponse.getQStringList (QString.number (i : Int))).length := by
  revert h
  simp only [NetworkPackage.getQStringList, gappedContactsResponse, QMap.find]
  split_ifs <;> simp

/-- The package with entries at 0, 1 and 3 satisfies the hypotheses of C11; its loop
ends within the four iterations its three entries allow. -/
theorem receivePackage_response_stores_leading_entries_witness :
    gappedContactsResponse.type = PACKAGE_TYPE_CONTACTS_RESPONSE ∧
    (∀ i : Nat, gappedContactsResponse.getQStringList (QString.number (i : Int)) ≠ [] →
      3 ≤ (gappedContactsResponse.getQStringList (QString.number (i : Int))).length) ∧
    ∃ k : Nat, k ≤ gappedContactsResponse.body.length ∧
      ContactsPlugin.fresh.receivePackage (gappedContactsResponse.body.length + 1)
          gappedContactsResponse =
        Except.ok (true,
          ((indexedContacts gappedContactsResponse k).foldl storeContact
            ContactsPlugin.fresh).emit ContactsSignal.cachedContactsAvailable) :=
  ⟨rfl, gappedContactsResponse_shape,
    (receivePackage_response_stores_leading_entries ContactsPlugin.fresh
      gappedContactsResponse rfl gappedContactsResponse_shape).1.imp
      (fun _ h => ⟨h.1, h.2.2.2.2.1⟩)⟩

end KdeConnect
